import Mathlib

/-!
Verification of the unbit Xilinx bitstream manipulation library.

This file gives a shallow embedding, in Lean 4, of the core of the unbit
repository: the per-SLR configuration context (config_context.cpp), the
word-level packet decoder (bitstream_engine.cpp), the configuration engine
with its scoped context switch (config_engine.cpp), the byte-level bitstream
container with its two-pass SLR extractor, CRC stripping and frame-data bit
accessors (config_reg.cpp), and the BRAM bit-mapping layer with the
extract/inject primitives (xc7z010.cpp, ramb36e2.cpp, bram.cpp).

Machine integers are embedded as Nat; all the C++ operations involved
(shifts, masks, table lookups, additions on small values) never overflow
the 32/64-bit types of the source, so no explicit wrap-around is required
except where noted.
-/

namespace Unbit

/-! ## Configuration context (src/src/fpga/xilinx/config_context.cpp) -/

/-- Write modes of a configuration context, from the wmode enum in
config_context.hpp (read_only = 0 after NUL, write_once = 1 after WCFG,
overwrite = 2 after MFW). -/
inductive WMode where
  | read_only
  | write_once
  | overwrite
deriving DecidableEq, Repr

/-- Per-SLR state of the configuration engine, mirroring the fields of
class config_context: slr_index_, far_, idcode_, write_mode_ and the
write_bitmap_ (an unordered_set of frame addresses). -/
structure ConfigContext where
  slr_index : Nat
  far : Nat
  idcode : Option Nat
  write_mode : WMode
  write_bitmap : Finset Nat
deriving DecidableEq

/-- The config_context constructor: far = 0, no idcode, read_only mode,
empty write bitmap (config_context.cpp lines 17-21). -/
def ConfigContext.mk_fresh (slr_index : Nat) : ConfigContext :=
  { slr_index := slr_index
  , far := 0
  , idcode := none
  , write_mode := WMode.read_only
  , write_bitmap := ∅ }

/-- config_context::set_far (config_context.cpp lines 29-33). -/
def ConfigContext.set_far (ctx : ConfigContext) (new_far : Nat) : ConfigContext :=
  { ctx with far := new_far }

/-- config_context::set_idcode (config_context.cpp lines 36-41). -/
def ConfigContext.set_idcode (ctx : ConfigContext) (new_idcode : Nat) : ConfigContext :=
  { ctx with idcode := some new_idcode }

/-- config_context::set_write_mode (config_context.cpp lines 44-48). -/
def ConfigContext.set_write_mode (ctx : ConfigContext) (new_mode : WMode) : ConfigContext :=
  { ctx with write_mode := new_mode }

/-- config_context::can_write_frame (config_context.cpp lines 51-69):
overwrite mode permits every frame; write_once mode returns the result of
write_bitmap_.contains(frame_addr) as written in the source; read_only
permits nothing. -/
def ConfigContext.can_write_frame (ctx : ConfigContext) (frame_addr : Nat) : Bool :=
  match ctx.write_mode with
  | WMode.overwrite => true
  | WMode.write_once => decide (frame_addr ∈ ctx.write_bitmap)
  | WMode.read_only => false

/-- config_context::mark_frame_write (config_context.cpp lines 72-75):
inserts the frame address into the write bitmap. -/
def ConfigContext.mark_frame_write (ctx : ConfigContext) (frame_addr : Nat) : ConfigContext :=
  { ctx with write_bitmap := insert frame_addr ctx.write_bitmap }

/-- The write-once discipline that the claim (and the documentation of
config_context.hpp: frame writes are only forwarded if the target frames
are unconfigured) demands: a frame write is permitted if and only if the
frame address is not yet in the written set. -/
def write_once_permits (ctx : ConfigContext) (frame_addr : Nat) : Bool :=
  match ctx.write_mode with
  | WMode.overwrite => true
  | WMode.write_once => decide (frame_addr ∉ ctx.write_bitmap)
  | WMode.read_only => false

/-- C1. Write-once law of the configuration engine. The code is wrong on
this point: in write_once mode, config_context::can_write_frame returns
write_bitmap_.contains(frame_addr) without negation, so a fresh WCFG
context refuses the first write to frame 0 while permitting a repeated
write to an already-written frame — exactly the opposite of the write-once
law stated by the claim and by the documentation in config_context.hpp.
This theorem evaluates the code at the failing input: a fresh context
switched to write_once mode denies frame address 0 although 0 is not in
written_frames, and after frame 0 is marked written the context permits
writing it again. -/
theorem C1_write_once_law_code_bug :
    ((ConfigContext.mk_fresh 0).set_write_mode WMode.write_once).can_write_frame 0
        = false
      ∧ write_once_permits
          ((ConfigContext.mk_fresh 0).set_write_mode WMode.write_once) 0 = true
      ∧ (((ConfigContext.mk_fresh 0).set_write_mode
            WMode.write_once).mark_frame_write 0).can_write_frame 0 = true
      ∧ write_once_permits
          (((ConfigContext.mk_fresh 0).set_write_mode
            WMode.write_once).mark_frame_write 0) 0 = false := by
  refine ⟨?_, ?_, ?_, ?_⟩ <;> decide

/-! ## Word-level packet decoder (src/src/fpga/xilinx/bitstream_engine.cpp) -/

/-- The FPGA sync word constant FPGA_SYNC_WORD_LE = 0xAA995566. -/
def FPGA_SYNC_WORD_LE : Nat := 0xAA995566

/-- Errors thrown (as bitstream_error) by the word-level decoder. -/
inductive BitstreamError where
  /-- unhandled packet type at current bitstream location (freestanding
  TYPE-2 or unknown packet type) -/
  | unhandled_packet_type
  /-- unexpected end of bitstream (expected a type2 packet with payload data) -/
  | expected_type2_eof
  /-- unhandled packet type at current bitstream location (expected a type2
  packet with payload data) -/
  | expected_type2_bad_type
  /-- payload data size exceeds bitstream boundaries -/
  | payload_exceeds_boundaries
  /-- malformed write to the command (CMD) register (missing command code) -/
  | malformed_cmd_write
  /-- malformed write to the IDCODE register (missing command code) -/
  | malformed_idcode_write
  /-- malformed write to the frame address (FAR) register (missing command code) -/
  | malformed_far_write
  /-- no active configuration context found -/
  | no_active_context
deriving DecidableEq, Repr

/-- Decidable equality of embedded results (Except values over decidable
payloads), used to evaluate the model on concrete inputs. -/
instance {ε α : Type} [DecidableEq ε] [DecidableEq α] : DecidableEq (Except ε α) := by
  intro a b
  cases a <;> cases b
  case error.error e1 e2 =>
    exact if h : e1 = e2 then isTrue (by rw [h]) else isFalse (by intro hc; cases hc; exact h rfl)
  case error.ok e v => exact isFalse (by intro hc; cases hc)
  case ok.error v e => exact isFalse (by intro hc; cases hc)
  case ok.ok v1 v2 =>
    exact if h : v1 = v2 then isTrue (by rw [h]) else isFalse (by intro hc; cases hc; exact h rfl)

/-- Packet-type field of a header: (hdr >> 29) & 0x7. -/
def be_packet_type (hdr : Nat) : Nat := (hdr >>> 29) &&& 0x7

/-- Opcode field extracted by bitstream_engine::parse_packet from a TYPE1
header: (hdr >> 27) & 0x3. -/
def be_pkt_op (hdr : Nat) : Nat := (hdr >>> 27) &&& 0x3

/-- Register field extracted by bitstream_engine::parse_packet from a TYPE1
header: (hdr >> 13) & 0x1F. -/
def be_pkt_reg (hdr : Nat) : Nat := (hdr >>> 13) &&& 0x1F

/-- Word-count field extracted by bitstream_engine::parse_packet from a
TYPE1 header, exactly as the source computes it: hdr & 0x3FF. -/
def be_word_count (hdr : Nat) : Nat := hdr &&& 0x3FF

/-- Word count extracted by bitstream_engine::parse_packet from a TYPE2
header: hdr_2 & 0x07FFFFFF. -/
def be_type2_word_count (hdr2 : Nat) : Nat := hdr2 &&& 0x07FFFFFF

/-- Outcome of one bitstream_engine::parse_packet call: the end-of-input
case (the C++ returns (pos, false) without an event), the silently
tolerated sync word (no event), or a decoded packet event carrying opcode,
register and payload span. -/
inductive PacketStep where
  | eof
  | sync
  | event (op reg : Nat) (payload : List Nat)
deriving DecidableEq, Repr

/-- bitstream_engine::parse_packet (bitstream_engine.cpp lines 67-190) over
a span of 32-bit words, returning the number of words consumed together
with the decoded step. Exceptions of the C++ are the error cases. -/
def parse_packet (ws : List Nat) : Except BitstreamError (Nat × PacketStep) :=
  match ws with
  | [] => Except.ok (0, PacketStep.eof)
  | hdr :: rest =>
    if hdr = FPGA_SYNC_WORD_LE then
      Except.ok (1, PacketStep.sync)
    else if be_packet_type hdr = 1 then
      let pkt_op := be_pkt_op hdr
      let pkt_reg := be_pkt_reg hdr
      let word_count := be_word_count hdr
      if word_count = 0 ∧ pkt_op ≠ 0 then
        match rest with
        | [] => Except.error BitstreamError.expected_type2_eof
        | hdr2 :: rest2 =>
          if be_packet_type hdr2 = 2 then
            let word_count2 := be_type2_word_count hdr2
            if rest2.length < word_count2 then
              Except.error BitstreamError.payload_exceeds_boundaries
            else
              Except.ok (2 + word_count2,
                         PacketStep.event pkt_op pkt_reg (rest2.take word_count2))
          else
            Except.error BitstreamError.expected_type2_bad_type
      else
        if rest.length < word_count then
          Except.error BitstreamError.payload_exceeds_boundaries
        else
          Except.ok (1 + word_count,
                     PacketStep.event pkt_op pkt_reg (rest.take word_count))
    else
      Except.error BitstreamError.unhandled_packet_type

/-- Tail of bitstream_engine::synchronize: skip over the run of
consecutive sync words (bitstream_engine.cpp lines 57-60). -/
def sync_skip : List Nat → Nat
  | [] => 0
  | w :: ws => if w = FPGA_SYNC_WORD_LE then 1 + sync_skip ws else 0

/-- bitstream_engine::synchronize (bitstream_engine.cpp lines 51-64): scan
for the first sync word, then skip the run of consecutive sync words;
returns the word index of the first word after the synchronization
sequence (the span length when no sync word is present). -/
def synchronize : List Nat → Nat
  | [] => 0
  | w :: ws => if w = FPGA_SYNC_WORD_LE then 1 + sync_skip ws else 1 + synchronize ws

/-- Events dispatched to the virtual callbacks of bitstream_engine during
packet processing, recorded as a trace. -/
inductive TraceEvent where
  | nop (reg : Nat) (payload : List Nat)
  | read (reg : Nat) (payload : List Nat)
  | write (reg : Nat) (payload : List Nat)
  | rsvd (reg : Nat) (payload : List Nat)
deriving DecidableEq, Repr

/-- Dispatch of a decoded packet to the default callbacks of the base
bitstream_engine (bitstream_engine.cpp lines 165-218): nop, write and read
are discarded with success = true, reserved packets are rejected with
success = false. -/
def base_dispatch (op reg : Nat) (payload : List Nat) : TraceEvent × Bool :=
  if op = 0 then (TraceEvent.nop reg payload, true)
  else if op = 2 then (TraceEvent.write reg payload, true)
  else if op = 1 then (TraceEvent.read reg payload, true)
  else (TraceEvent.rsvd reg payload, false)

/-- parse_packet consumes at least one word on any non-empty input that it
accepts. -/
theorem parse_packet_consumed_pos (w : Nat) (rest : List Nat) (c : Nat) (st : PacketStep)
    (h : parse_packet (w :: rest) = Except.ok (c, st)) : 1 ≤ c := by
  unfold parse_packet at h
  dsimp only at h
  split at h
  · exact (by cases h; omega)
  · split at h
    · split at h
      · split at h
        · cases h
        · split at h
          · split at h
            · cases h
            · cases h; omega
          · cases h
      · split at h
        · cases h
        · cases h; omega
    · cases h

/-- The packet-processing loop of the base bitstream_engine
(bitstream_engine.cpp lines 42-45) with the default callbacks: repeatedly
parse packets until the stream is exhausted or a callback reports failure;
returns the number of words consumed, the final pkt_valid flag, and the
trace of dispatched events. -/
def process_loop : (ws : List Nat) → Except BitstreamError (Nat × Bool × List TraceEvent)
  | [] => Except.ok (0, true, [])
  | w :: rest =>
    match h : parse_packet (w :: rest) with
    | Except.error e => Except.error e
    | Except.ok (c, PacketStep.eof) => Except.ok (c, false, [])
    | Except.ok (c, PacketStep.sync) =>
      match process_loop ((w :: rest).drop c) with
      | Except.error e => Except.error e
      | Except.ok (c2, valid, evs) => Except.ok (c + c2, valid, evs)
    | Except.ok (c, PacketStep.event op reg payload) =>
      let (ev, ok) := base_dispatch op reg payload
      if ok then
        match process_loop ((w :: rest).drop c) with
        | Except.error e => Except.error e
        | Except.ok (c2, valid, evs) => Except.ok (c + c2, valid, ev :: evs)
      else
        Except.ok (c, false, [ev])
termination_by ws => ws.length
decreasing_by
  all_goals
    simp only [List.length_drop, List.length_cons]
    have := parse_packet_consumed_pos _ _ _ _ h
    omega

/-- bitstream_engine::process_packets (bitstream_engine.cpp lines 30-48):
optionally synchronize, then run the packet loop; the returned position is
relative to the start of the input span. -/
def process_packets (ws : List Nat) (is_synchronized : Bool) :
    Except BitstreamError (Nat × Bool × List TraceEvent) :=
  let start := if is_synchronized then 0 else synchronize ws
  match process_loop (ws.drop start) with
  | Except.error e => Except.error e
  | Except.ok (c, valid, evs) => Except.ok (start + c, valid, evs)

/-! ## Configuration engine (src/src/fpga/xilinx/config_engine.cpp) -/

/-- Configuration register numbers from the config_reg enum
(config_reg.hpp): FAR = 0b00001. -/
def REG_FAR : Nat := 1

/-- FDRI = 0b00010. -/
def REG_FDRI : Nat := 2

/-- FDRO = 0b00011. -/
def REG_FDRO : Nat := 3

/-- CMD = 0b00100. -/
def REG_CMD : Nat := 4

/-- MFWR = 0b01010. -/
def REG_MFWR : Nat := 10

/-- IDCODE = 0b01100. -/
def REG_IDCODE : Nat := 12

/-- RSVD30 = 0b11110 (switch to next SLR). -/
def REG_RSVD30 : Nat := 30

/-- Command code NUL = 0b00000 (config_cmd enum). -/
def CMD_NUL : Nat := 0

/-- Command code WCFG = 0b00001. -/
def CMD_WCFG : Nat := 1

/-- Command code MFW = 0b00010. -/
def CMD_MFW : Nat := 2

/-- Engine state of config_engine: the active context pointer ctx_
(a unique_ptr that may be empty; get_context throws when it is). -/
structure EngState where
  ctx : Option ConfigContext
deriving DecidableEq

/-- config_engine::on_config_cmd together with the on_cmd_nul / on_cmd_wcfg
/ on_cmd_mfw handlers (config_engine.cpp lines 178-219): NUL, WCFG and MFW
update the write mode of the active context (get_context throws when no
context is active); every other command code is ignored. -/
def ce_on_config_cmd (eng : EngState) (cmd : Nat) : EngState × Except BitstreamError Unit :=
  if cmd = CMD_NUL ∨ cmd = CMD_WCFG ∨ cmd = CMD_MFW then
    match eng.ctx with
    | none => (eng, Except.error BitstreamError.no_active_context)
    | some c =>
      let m := if cmd = CMD_NUL then WMode.read_only
               else if cmd = CMD_WCFG then WMode.write_once
               else WMode.overwrite
      (⟨some (c.set_write_mode m)⟩, Except.ok ())
  else (eng, Except.ok ())

/-- The payload of a decoded event is strictly shorter than the word span
it was parsed from. -/
theorem parse_packet_event_payload_lt (w : Nat) (rest : List Nat) (c op reg : Nat)
    (payload : List Nat)
    (h : parse_packet (w :: rest) = Except.ok (c, PacketStep.event op reg payload)) :
    payload.length < (w :: rest).length := by
  unfold parse_packet at h
  dsimp only at h
  split at h
  · cases h
  · split at h
    · split at h
      · split at h
        · cases h
        · rename_i hdr2 rest2
          split at h
          · split at h
            · cases h
            · rename_i hlen
              cases h
              simp only [List.length_take, List.length_cons] at *
              omega
          · cases h
      · split at h
        · cases h
        · rename_i hlen
          cases h
          simp only [List.length_take, List.length_cons] at *
          omega
    · cases h

mutual

/-- The base bitstream_engine::process_packets loop as invoked on a
config_engine (config_engine.cpp line 89 and 152 call it with
is_synchronized = false): synchronize, then run the packet loop with the
config_engine callbacks; the state threads the active context. -/
def ce_process_packets (eng : EngState) (ws : List Nat) (is_synchronized : Bool) :
    EngState × Except BitstreamError (Nat × Bool) :=
  let start := if is_synchronized then 0 else synchronize ws
  match ce_loop eng (ws.drop start) with
  | (eng2, Except.error e) => (eng2, Except.error e)
  | (eng2, Except.ok (c, valid)) => (eng2, Except.ok (start + c, valid))
termination_by (ws.length, 1)
decreasing_by
  simp only [List.length_drop]
  split
  · simp only [Nat.sub_zero]
    exact Prod.Lex.right _ (by omega)
  · rcases Nat.eq_or_lt_of_le (Nat.sub_le ws.length (synchronize ws)) with hq | hq
    · rw [hq]; exact Prod.Lex.right _ (by omega)
    · exact Prod.Lex.left _ _ hq

/-- The packet loop of bitstream_engine::process_packets (lines 42-45)
running on a config_engine: nop and read events are accepted by the
default callbacks, write events dispatch to config_engine::on_config_write,
reserved events stop the loop with success = false, and bitstream_error
exceptions propagate. -/
def ce_loop (eng : EngState) (ws : List Nat) : EngState × Except BitstreamError (Nat × Bool) :=
  match ws with
  | [] => (eng, Except.ok (0, true))
  | w :: rest =>
    match h : parse_packet (w :: rest) with
    | Except.error e => (eng, Except.error e)
    | Except.ok (c, PacketStep.eof) => (eng, Except.ok (c, false))
    | Except.ok (c, PacketStep.sync) =>
      match ce_loop eng ((w :: rest).drop c) with
      | (eng2, Except.error e) => (eng2, Except.error e)
      | (eng2, Except.ok (c2, v)) => (eng2, Except.ok (c + c2, v))
    | Except.ok (c, PacketStep.event op reg payload) =>
      if op = 0 then
        match ce_loop eng ((w :: rest).drop c) with
        | (eng2, Except.error e) => (eng2, Except.error e)
        | (eng2, Except.ok (c2, v)) => (eng2, Except.ok (c + c2, v))
      else if op = 2 then
        match ce_on_config_write eng reg payload with
        | (eng2, Except.error e) => (eng2, Except.error e)
        | (eng2, Except.ok _) =>
          match ce_loop eng2 ((w :: rest).drop c) with
          | (eng3, Except.error e) => (eng3, Except.error e)
          | (eng3, Except.ok (c2, v)) => (eng3, Except.ok (c + c2, v))
      else if op = 1 then
        match ce_loop eng ((w :: rest).drop c) with
        | (eng2, Except.error e) => (eng2, Except.error e)
        | (eng2, Except.ok (c2, v)) => (eng2, Except.ok (c + c2, v))
      else
        (eng, Except.ok (c, false))
termination_by (ws.length, 0)
decreasing_by
  all_goals
    simp only [List.length_drop, List.length_cons]
    first
    | · exact Prod.Lex.left _ _ (by
          have := parse_packet_event_payload_lt _ _ _ _ _ _ h
          simp only [List.length_cons] at this
          omega)
    | · have := parse_packet_consumed_pos _ _ _ _ h
        exact Prod.Lex.left _ _ (by omega)

/-- config_engine::on_config_write (config_engine.cpp lines 93-142):
dispatch on the target register; CMD, IDCODE and FAR writes require a
payload word and an active context; a write to RSVD30 switches to the
next SLR; FDRI and MFWR dispatch to the empty default hooks; all other
registers are ignored. -/
def ce_on_config_write (eng : EngState) (reg : Nat) (data : List Nat) :
    EngState × Except BitstreamError Unit :=
  if reg = REG_CMD then
    match data with
    | [] => (eng, Except.error BitstreamError.malformed_cmd_write)
    | d0 :: _ => ce_on_config_cmd eng d0
  else if reg = REG_IDCODE then
    match data with
    | [] => (eng, Except.error BitstreamError.malformed_idcode_write)
    | d0 :: _ =>
      match eng.ctx with
      | none => (eng, Except.error BitstreamError.no_active_context)
      | some c => (⟨some (c.set_idcode d0)⟩, Except.ok ())
  else if reg = REG_FAR then
    match data with
    | [] => (eng, Except.error BitstreamError.malformed_far_write)
    | d0 :: _ =>
      match eng.ctx with
      | none => (eng, Except.error BitstreamError.no_active_context)
      | some c => (⟨some (c.set_far d0)⟩, Except.ok ())
  else if reg = REG_RSVD30 then
    match eng.ctx with
    | none => (eng, Except.error BitstreamError.no_active_context)
    | some c => ce_on_config_slr eng data (c.slr_index + 1)
  else
    (eng, Except.ok ())
termination_by (data.length, 3)
decreasing_by
  exact Prod.Lex.right _ (by omega)

/-- config_engine::on_config_slr (config_engine.cpp lines 145-153): a
context_switch_guard swaps a fresh context (create_context next_slr) into
the engine, the payload is processed by the base engine, and the guard
destructor restores the saved context — on normal return and on error
propagation alike. -/
def ce_on_config_slr (eng : EngState) (data : List Nat) (next_slr : Nat) :
    EngState × Except BitstreamError Unit :=
  let saved := eng.ctx
  match ce_process_packets ⟨some (ConfigContext.mk_fresh next_slr)⟩ data false with
  | (_, Except.error e) => (⟨saved⟩, Except.error e)
  | (_, Except.ok _) => (⟨saved⟩, Except.ok ())
termination_by (data.length, 2)
decreasing_by
  exact Prod.Lex.right _ (by omega)

end

/-- config_engine::process_packets (config_engine.cpp lines 83-90): a
context_switch_guard installs a fresh root context for SLR 0, the base
engine processes the data (always with is_synchronized = false), and the
guard restores the previous context pointer on exit. -/
def ce_process_packets_top (eng : EngState) (ws : List Nat) (is_synchronized : Bool) :
    EngState × Except BitstreamError (Nat × Bool) :=
  let saved := eng.ctx
  match ce_process_packets ⟨some (ConfigContext.mk_fresh 0)⟩ ws false with
  | (_, Except.error e) => (⟨saved⟩, Except.error e)
  | (_, Except.ok r) => (⟨saved⟩, Except.ok r)

/-! ## Byte-level bitstream container (src/src/fpga/xilinx/config_reg.cpp,
old unbit::xilinx::bitstream) -/

/-- The 4-byte SYNC_PATTERN AA 99 55 66. -/
def SYNC_PATTERN : List Nat := [0xAA, 0x99, 0x55, 0x66]

/-- SYNC_WORD, the pattern in decoded packet header format. -/
def SYNC_WORD : Nat := 0xAA995566

/-- Reads a 32-bit big-endian word from four consecutive bytes, as the
packet-header reads of bitstream::parse do (config_reg.cpp lines 208-211
and the IDCODE payload read at lines 336-340). -/
def read_be32 (bytes : List Nat) (i : Nat) : Nat :=
  ((bytes.getD i 0) <<< 24) ||| ((bytes.getD (i + 1) 0) <<< 16) |||
    ((bytes.getD (i + 2) 0) <<< 8) ||| (bytes.getD (i + 3) 0)

/-- Packet-type field decoded by bitstream::parse: (hdr >> 29) & 0x7. -/
def bs_packet_type (hdr : Nat) : Nat := (hdr >>> 29) &&& 0x7

/-- Opcode field decoded by bitstream::parse: (hdr >> 27) & 0x3. -/
def bs_op (hdr : Nat) : Nat := (hdr >>> 27) &&& 0x3

/-- TYPE1 register field decoded by bitstream::parse: (hdr >> 13) & 0x1F. -/
def bs_type1_reg (hdr : Nat) : Nat := (hdr >>> 13) &&& 0x1F

/-- TYPE1 word-count field decoded by bitstream::parse (config_reg.cpp line
228): hdr & 0x7FF, the full 11-bit field hdr[10:0]. -/
def bs_type1_word_count (hdr : Nat) : Nat := hdr &&& 0x7FF

/-- TYPE2 word-count field decoded by bitstream::parse: hdr & 0x07FFFFFF. -/
def bs_type2_word_count (hdr : Nat) : Nat := hdr &&& 0x07FFFFFF

/-- Errors thrown (std::invalid_argument / std::out_of_range) by the
bitstream container, plus a fuel marker for the embedding of the parse
loops (unreachable with the fuel the wrappers supply). -/
inductive BsError where
  /-- sync word (AA995566) was not found in the bitstream -/
  | sync_not_found
  /-- unsupported/unknown configuration packet -/
  | unknown_packet
  /-- malformed bitstream: packet size exceeds end of bitstream -/
  | packet_exceeds_end
  /-- mismatch between actual and expected idcode values -/
  | idcode_mismatch
  /-- found multiple FDRI write commands -/
  | multiple_fdri
  /-- found multiple FDRO write commands -/
  | multiple_fdro
  /-- found mix of FDRI/FDRO in one bitstream -/
  | mixed_fdri_fdro
  /-- rejected unexpected readback bitstream -/
  | rejected_readback
  /-- bad frame data size of readback frame -/
  | bad_readback_size
  /-- unknown/unsupported Xilinx device (IDCODE not found) -/
  | unknown_device
  /-- bitstream did not contain any frame data slices -/
  | no_frame_data
  /-- invalid CRC command packet (size != 8 byte) -/
  | crc_packet_bad_size
  /-- frame data slice is out of bounds -/
  | frame_out_of_range
  /-- size of data to be injected does not match block ram size -/
  | bram_size_mismatch
  /-- fuel marker of the embedding (never reached by the wrappers) -/
  | fuel_exhausted
deriving DecidableEq, Repr

/-- Decoded packet descriptor, mirroring struct bitstream::packet: stream
index, offset relative to the sub-stream parse start, absolute storage
offset of the header, raw header, decoded fields, and the byte range of
the payload. -/
structure Packet where
  stream_index : Nat
  offset : Nat
  storage_offset : Nat
  hdr : Nat
  packet_type : Nat
  op : Nat
  reg : Nat
  word_count : Nat
  payload_start : Nat
  payload_size : Nat
deriving DecidableEq, Repr

/-- True when the four bytes at index i equal the SYNC_PATTERN (out of
range reads default to 0 and can never match the pattern). -/
def is_sync_at (bytes : List Nat) (i : Nat) : Bool :=
  (bytes.getD i 0 == 0xAA) && (bytes.getD (i + 1) 0 == 0x99) &&
    (bytes.getD (i + 2) 0 == 0x55) && (bytes.getD (i + 3) 0 == 0x66)

/-- std::search for the SYNC_PATTERN: index of the first occurrence of the
pattern at or after start, none when the pattern does not occur. -/
def find_sync_index (bytes : List Nat) (start : Nat) : Option Nat :=
  (List.range bytes.length).find? (fun j => decide (start ≤ j) && is_sync_at bytes j)

/-- Packet callback shape of bitstream::parse: the callback sees the
packet, may transform the state (for bitstream::edit the state is the byte
buffer itself, which the callback mutates in place), may throw, and
returns the continue flag. -/
def CbFun (σ : Type) : Type := σ → Packet → Except BsError (σ × Bool)

/-- The packet loop of bitstream::parse (config_reg.cpp lines 199-283),
generic over a state that carries the byte buffer the parser reads from
(bitstream::edit mutates that buffer through the callback while the parse
is running, so reads go through the current state). Arguments after the
fuel: state, parse base (the start iterator of this parse call), current
position, end of the 4-byte-aligned config area, stream index, and the
current_write / current_reg latches. Returns the final state and final
position: the loop breaks at a SYNC word (rewinding to it), after a write
to register 0b11110 with non-zero payload (rewinding to the payload
start), when the callback requests a stop, or at the end of the area. -/
def bs_parse_loop {σ : Type} (bytesOf : σ → List Nat) (cb : CbFun σ) :
    Nat → σ → Nat → Nat → Nat → Nat → Bool → Nat → Except BsError (σ × Nat)
  | 0, _, _, _, _, _, _, _ => Except.error BsError.fuel_exhausted
  | fuel + 1, s, base, pos, cfg_end, slr, cw, creg =>
    if pos = cfg_end then
      Except.ok (s, pos)
    else
      let bytes := bytesOf s
      let hdr := read_be32 bytes pos
      let packet_type := bs_packet_type hdr
      if packet_type = 1 then
        let op := bs_op hdr
        let reg := bs_type1_reg hdr
        let wc := bs_type1_word_count hdr
        let byte_count := wc * 4
        if cfg_end - (pos + 4) < byte_count then
          Except.error BsError.packet_exceeds_end
        else
          let pkt : Packet :=
            { stream_index := slr, offset := pos - base, storage_offset := pos
            , hdr := hdr, packet_type := packet_type, op := op, reg := reg
            , word_count := wc, payload_start := pos + 4, payload_size := byte_count }
          match cb s pkt with
          | Except.error e => Except.error e
          | Except.ok (s2, cont) =>
            if op = 2 ∧ reg = 30 ∧ wc > 0 then
              Except.ok (s2, pos + 4)
            else if cont then
              bs_parse_loop bytesOf cb fuel s2 base (pos + 4 + byte_count) cfg_end slr
                (op = 2) reg
            else
              Except.ok (s2, pos + 4 + byte_count)
      else if packet_type = 2 then
        let op := if cw then 2 else 0
        let reg := creg
        let wc := bs_type2_word_count hdr
        let byte_count := wc * 4
        if cfg_end - (pos + 4) < byte_count then
          Except.error BsError.packet_exceeds_end
        else
          let pkt : Packet :=
            { stream_index := slr, offset := pos - base, storage_offset := pos
            , hdr := hdr, packet_type := packet_type, op := op, reg := reg
            , word_count := wc, payload_start := pos + 4, payload_size := byte_count }
          match cb s pkt with
          | Except.error e => Except.error e
          | Except.ok (s2, cont) =>
            if op = 2 ∧ reg = 30 ∧ wc > 0 then
              Except.ok (s2, pos + 4)
            else if cont then
              bs_parse_loop bytesOf cb fuel s2 base (pos + 4 + byte_count) cfg_end slr cw creg
            else
              Except.ok (s2, pos + 4 + byte_count)
      else if hdr = SYNC_WORD then
        Except.ok (s, pos)
      else
        Except.error BsError.unknown_packet

/-- One call of bitstream::parse on a sub-stream (config_reg.cpp lines
131-287): search for the sync pattern from the current position, round the
remaining length down to a 4-byte boundary, and run the packet loop with
current_write = false and current_reg = 0xFFFFFFFF. -/
def bs_parse_substream {σ : Type} (bytesOf : σ → List Nat) (cb : CbFun σ)
    (s : σ) (cur slr : Nat) : Except BsError (σ × Nat) :=
  let bytes := bytesOf s
  match find_sync_index bytes cur with
  | none => Except.error BsError.sync_not_found
  | some sp =>
    let cfg_start := sp + 4
    let total := bytes.length - cfg_start
    let cfg_end := cfg_start + (total - total % 4)
    bs_parse_loop bytesOf cb (bytes.length + 1) s cur cfg_start cfg_end slr false 0xFFFFFFFF

/-- The outer loop of bitstream::parse (config_reg.cpp lines 119-128):
parse sub-streams until the end of the buffer is reached, counting the
stream index up. -/
def bs_parse_all {σ : Type} (bytesOf : σ → List Nat) (cb : CbFun σ) :
    Nat → σ → Nat → Nat → Except BsError σ
  | 0, _, _, _ => Except.error BsError.fuel_exhausted
  | fuel + 1, s, cur, slr =>
    if cur < (bytesOf s).length then
      match bs_parse_substream bytesOf cb s cur slr with
      | Except.error e => Except.error e
      | Except.ok (s2, cur2) => bs_parse_all bytesOf cb fuel s2 cur2 (slr + 1)
    else
      Except.ok s

/-- The pure packet-collecting callback: keeps the byte buffer unchanged
and appends every packet to the trace. -/
def collect_cb : CbFun (List Nat × List Packet) :=
  fun s pkt => Except.ok ((s.1, s.2 ++ [pkt]), true)

/-- bitstream::parse with the pure packet-collecting callback: the list of
packets the parser delivers, in stream order. -/
def bs_parse_packets (bytes : List Nat) : Except BsError (List Packet) :=
  (bs_parse_all Prod.fst collect_cb (bytes.length + 1) (bytes, []) 0 0).map Prod.snd

/-- Writes the 8-byte replacement 20 00 00 00 20 00 00 00 (two NOP
headers) at byte index i. -/
def write_nop8 (buf : List Nat) (i : Nat) : List Nat :=
  ((((((((buf.set i 0x20).set (i + 1) 0).set (i + 2) 0).set (i + 3) 0).set
    (i + 4) 0x20).set (i + 5) 0).set (i + 6) 0).set (i + 7) 0)

/-- The edit callback of bitstream::strip_crc_checks (config_reg.cpp lines
585-598): a packet whose header is 0x30000001 must span exactly 8 bytes
and is replaced in place by two NOP headers; other packets are left
alone. -/
def strip_crc_cb (buf : List Nat) (pkt : Packet) : Except BsError (List Nat × Bool) :=
  if pkt.hdr = 0x30000001 then
    if 4 + pkt.payload_size ≠ 8 then Except.error BsError.crc_packet_bad_size
    else Except.ok (write_nop8 buf pkt.storage_offset, true)
  else Except.ok (buf, true)

/-- bitstream::strip_crc_checks (config_reg.cpp lines 581-600): re-run the
parser over the buffer via bitstream::edit, rewriting every CRC-write
packet into two NOPs while the parse is in flight. -/
def strip_crc_checks (bytes : List Nat) : Except BsError (List Nat) :=
  bs_parse_all id strip_crc_cb (bytes.length + 1) bytes 0 0

/-- The cumulative effect of the strip-CRC edit callback over a packet
sequence: write the two-NOP pattern at the storage offset of every packet
whose header is 0x30000001. -/
def apply_nops (bytes : List Nat) (pkts : List Packet) : List Nat :=
  pkts.foldl
    (fun buf pkt => if pkt.hdr = 0x30000001 then write_nop8 buf pkt.storage_offset
                    else buf) bytes

/-- The 8-byte replacement written over a CRC-write packet. -/
def nop_pattern : List Nat := [0x20, 0, 0, 0, 0x20, 0, 0, 0]

/-- Separation of the CRC packets of a packet sequence: every packet that
follows a CRC-write packet starts at or after the end of its 8-byte
replacement window. -/
def crc_sep (l : List Packet) : Prop :=
  List.Pairwise
    (fun p q => p.hdr = 0x30000001 → p.storage_offset + 8 ≤ q.storage_offset) l

/-- A 16-byte example stream: sync word, a 1-word CRC-register write
(header 0x30000001 with payload DE AD BE EF), and a NOP header. -/
def strip_example_stream : List Nat :=
  [0xAA, 0x99, 0x55, 0x66, 0x30, 0x00, 0x00, 0x01,
   0xDE, 0xAD, 0xBE, 0xEF, 0x20, 0x00, 0x00, 0x00]

/-- The packets bitstream::parse reports for strip_example_stream. -/
def strip_example_pkts : List Packet :=
  [ { stream_index := 0, offset := 4, storage_offset := 4, hdr := 0x30000001
    , packet_type := 1, op := 2, reg := 0, word_count := 1
    , payload_start := 8, payload_size := 4 }
  , { stream_index := 0, offset := 12, storage_offset := 12, hdr := 0x20000000
    , packet_type := 1, op := 0, reg := 0, word_count := 0
    , payload_start := 16, payload_size := 0 } ]

/-- Per-SLR descriptor, mirroring struct bitstream::slr_info with its
constructor defaults (bitstream.hpp lines 100-127): sync_offset and
idcode start at 0xFFFFFFFF, the frame-data range starts empty. -/
structure SlrInfo where
  sync_offset : Nat
  frame_data_offset : Nat
  frame_data_size : Nat
  idcode : Nat
deriving DecidableEq, Repr

/-- The slr_info default constructor. -/
def SlrInfo.init : SlrInfo :=
  { sync_offset := 0xFFFFFFFF, frame_data_offset := 0, frame_data_size := 0
  , idcode := 0xFFFFFFFF }

/-- State of pass 1 of the bitstream constructor (config_reg.cpp lines
309-315): the growing sub-stream descriptor array, the latched main
IDCODE, and the readback classification flags. -/
structure Pass1State where
  substreams : List SlrInfo
  main_idcode : Nat
  is_readback : Bool
  have_frame_data : Bool
deriving DecidableEq, Repr

/-- Modelled from the spec: the device catalog resolution used by the FDRO
branch of pass 1 (fpga_by_idcode followed by fpga::frame_size, the size of
a single configuration frame in bytes per fpga.hpp lines 98-104). The
concrete per-device constructors for the Zynq-7 models of this fpga class
generation are not under src; per the spec (section 6, known IDCODEs) and
the 7-series frame geometry recorded in xc7z010.cpp (101 words per frame)
the three Zynq-7 IDCODEs resolve to a frame size of 101 * 4 bytes. An
unknown IDCODE makes fpga_by_idcode throw (none here). -/
def fpga_frame_size (idcode : Nat) : Option Nat :=
  if idcode = 0x03722093 ∨ idcode = 0x0373B093 ∨ idcode = 0x03727093 then
    some (101 * 4)
  else
    none

/-- The pass-1 packet callback of the bitstream constructor
(config_reg.cpp lines 317-433): grow the sub-stream array, latch the sync
offset, and handle IDCODE writes, FDRI writes and FDRO reads; everything
else only keeps the bookkeeping. -/
def pass1_step (bytes : List Nat) (accept_readback : Bool) (st : Pass1State)
    (pkt : Packet) : Except BsError (Pass1State × Bool) :=
  let subs := if st.substreams.length ≤ pkt.stream_index
              then st.substreams ++ [SlrInfo.init] else st.substreams
  let self := subs.getD pkt.stream_index SlrInfo.init
  let self := if self.sync_offset = 0xFFFFFFFF
              then { self with sync_offset := pkt.offset } else self
  if pkt.op = 2 ∧ pkt.reg = 12 ∧ pkt.word_count > 0 then
    let extracted := read_be32 bytes pkt.payload_start
    if self.idcode ≠ 0xFFFFFFFF ∧ self.idcode ≠ extracted then
      Except.error BsError.idcode_mismatch
    else
      let self := { self with idcode := extracted }
      let main := if st.main_idcode = 0xFFFFFFFF then extracted else st.main_idcode
      let st2 := { st with substreams := (subs.set pkt.stream_index self),
                           main_idcode := main }
      Except.ok (st2, true)
  else if pkt.op = 2 ∧ pkt.reg = 2 ∧ pkt.word_count > 0 then
    if 0 < self.frame_data_size then
      Except.error BsError.multiple_fdri
    else if st.have_frame_data ∧ st.is_readback then
      Except.error BsError.mixed_fdri_fdro
    else
      let self := { self with frame_data_offset := pkt.storage_offset + 4,
                              frame_data_size := pkt.payload_size }
      let st2 := { st with substreams := (subs.set pkt.stream_index self),
                           is_readback := false, have_frame_data := true }
      Except.ok (st2, true)
  else if pkt.op = 0 ∧ pkt.reg = 3 ∧ pkt.word_count > 0 then
    if ¬ accept_readback then
      Except.error BsError.rejected_readback
    else if 0 < self.frame_data_size then
      Except.error BsError.multiple_fdro
    else if st.have_frame_data ∧ ¬ st.is_readback then
      Except.error BsError.mixed_fdri_fdro
    else
      match fpga_frame_size st.main_idcode with
      | none => Except.error BsError.unknown_device
      | some readback_offset =>
        if pkt.payload_size < readback_offset then
          Except.error BsError.bad_readback_size
        else
          let self := { self with
                        frame_data_offset := pkt.storage_offset + 4 + readback_offset,
                        frame_data_size := pkt.payload_size - readback_offset }
          let st2 := { st with substreams := (subs.set pkt.stream_index self),
                               is_readback := true, have_frame_data := true }
          Except.ok (st2, true)
  else
    let st2 := { st with substreams := subs.set pkt.stream_index self }
    Except.ok (st2, true)

/-- Pass 1 of the bitstream constructor: parse all sub-streams with the
pass-1 callback over a fixed byte buffer. -/
def bitstream_pass1 (bytes : List Nat) (accept_readback : Bool) :
    Except BsError Pass1State :=
  (bs_parse_all (σ := List Nat × Pass1State) Prod.fst
      (fun s pkt => (pass1_step s.1 accept_readback s.2 pkt).map (fun r => ((s.1, r.1), r.2)))
      (bytes.length + 1)
      (bytes, { substreams := [], main_idcode := 0xFFFFFFFF,
                is_readback := false, have_frame_data := false }) 0 0).map Prod.snd

/-- The bitstream constructor (config_reg.cpp lines 290-455): pass 1, then
pass 2 retaining the sub-streams with non-empty frame data as the SLR
list; a bitstream without any frame data slice is rejected. Returns the
SLR list and the is_readback flag. -/
def bitstream_load (bytes : List Nat) (accept_readback : Bool) :
    Except BsError (List SlrInfo × Bool) :=
  match bitstream_pass1 bytes accept_readback with
  | Except.error e => Except.error e
  | Except.ok st =>
    let slrs := st.substreams.filter (fun self => decide (0 < self.frame_data_size))
    if slrs.length = 0 then Except.error BsError.no_frame_data
    else Except.ok (slrs, st.is_readback)

/-- The pass-1 callback iterated over a packet sequence, in the order the
parser delivers them. -/
def pass1_fold (bytes : List Nat) (accept_readback : Bool) :
    List Packet → Pass1State → Except BsError Pass1State
  | [], st => Except.ok st
  | p :: ps, st =>
    match pass1_step bytes accept_readback st p with
    | Except.error e => Except.error e
    | Except.ok (st2, _) => pass1_fold bytes accept_readback ps st2

/-- The initial pass-1 state of the bitstream constructor (config_reg.cpp
lines 310-315). -/
def pass1_init : Pass1State :=
  { substreams := [], main_idcode := 0xFFFFFFFF
  , is_readback := false, have_frame_data := false }

/-- A concrete readback bitstream for the XC7Z020 (IDCODE 0x03727093):
sync word, a 1-word IDCODE write (header 0x30018001), and a 102-word FDRO
read packet (header 0x20006066, 408 payload bytes, covering one 404-byte
pad frame plus 4 bytes of frame data). -/
def readback_example_stream : List Nat :=
  [0xAA, 0x99, 0x55, 0x66, 0x30, 0x01, 0x80, 0x01, 0x03, 0x72, 0x70, 0x93,
   0x20, 0x00, 0x60, 0x66] ++ List.replicate 408 0

/-- bitstream::map_frame_data_offset (config_reg.cpp lines 740-745): the
32-bit word byte swap; offset & ~3 is (offset / 4) * 4 and offset & 3 is
offset % 4. -/
def map_frame_data_offset (offset : Nat) : Nat :=
  (offset / 4) * 4 + (3 - offset % 4)

/-- bitstream::check_frame_data_range (config_reg.cpp lines 729-737) as a
predicate: true when the slice [offset, offset + len) lies inside the
frame data of the SLR. -/
def check_frame_data_range (si : SlrInfo) (offset len : Nat) : Bool :=
  decide (offset < si.frame_data_size) && decide (len ≤ si.frame_data_size - offset)

/-- bitstream::read_frame_data_bit (config_reg.cpp lines 623-630). -/
def read_frame_data_bit (bytes : List Nat) (si : SlrInfo) (bit_offset : Nat) :
    Except BsError Bool :=
  let src_byte_index := map_frame_data_offset (bit_offset / 8)
  if check_frame_data_range si src_byte_index 1 then
    Except.ok (Nat.testBit (bytes.getD (src_byte_index + si.frame_data_offset) 0)
                           (bit_offset % 8))
  else
    Except.error BsError.frame_out_of_range

/-- bitstream::write_frame_data_bit (config_reg.cpp lines 634-649): set or
clear one bit of the addressed byte (the cleared byte is masked to 8 bits,
exactly as the uint8_t store does). -/
def write_frame_data_bit (bytes : List Nat) (si : SlrInfo) (bit_offset : Nat)
    (value : Bool) : Except BsError (List Nat) :=
  let dst_byte_index := map_frame_data_offset (bit_offset / 8)
  if check_frame_data_range si dst_byte_index 1 then
    let idx := dst_byte_index + si.frame_data_offset
    let b := bytes.getD idx 0
    let b2 := if value then b ||| (1 <<< (bit_offset % 8))
              else b &&& (0xFF ^^^ (1 <<< (bit_offset % 8)))
    Except.ok (bytes.set idx b2)
  else
    Except.error BsError.frame_out_of_range

/-! ## BRAM bit-mapping layer (src/src/fpga/xilinx/v7/xc7z010.cpp,
src/src/fpga/xilinx/old/ramb36e2.cpp, bram extract/inject) -/

/-- groupL_table of the RAMB36E1 mapping (xc7z010.cpp lines 132-136). -/
def groupL_table : List Nat :=
  [0x00, 0x08, 0x04, 0x0C, 0x01, 0x09, 0x05, 0x0D,
   0x02, 0x0A, 0x06, 0x0E, 0x03, 0x0B, 0x07, 0x0F]

/-- groupH_table of the RAMB36E1 data mapping (xc7z010.cpp lines 139-143). -/
def groupH_table : List Nat :=
  [0x00, 0x0B, 0x01, 0x0C, 0x02, 0x0D, 0x03, 0x0E,
   0x05, 0x10, 0x06, 0x11, 0x07, 0x12, 0x08, 0x13]

/-- groupP_table of the RAMB36E1 parity mapping (xc7z010.cpp lines
171-174). -/
def groupP_table : List Nat := [0x04, 0x0F]

/-- ramb36e1_map_data_bit (xc7z010.cpp lines 129-153): block scale 0xCA
for 256-entry blocks; base_offset = (bit / 256) * 0xCA +
groupH_table[bit & 0xF]; result = (base_offset << 4) +
groupL_table[(bit >> 4) & 0xF]. The C++ guard throws out_of_range for
bit addresses at or above 32768; callers stay below that bound. -/
def ramb36e1_map_data_bit (data_offset : Nat) : Nat :=
  let base_offset := (data_offset / 256) * 0xCA + groupH_table.getD (data_offset &&& 0xF) 0
  base_offset * 16 + groupL_table.getD ((data_offset >>> 4) &&& 0xF) 0

/-- ramb36e1_map_parity_bit (xc7z010.cpp lines 161-184): base_offset =
(bit / 32) * 0xCA + groupP_table[bit & 0x1]; result = (base_offset << 4)
+ groupL_table[(bit >> 1) & 0xF]. The C++ guard throws out_of_range for
bit addresses at or above 4096; callers stay below that bound. -/
def ramb36e1_map_parity_bit (parity_offset : Nat) : Nat :=
  let base_offset := (parity_offset / 32) * 0xCA + groupP_table.getD (parity_offset &&& 0x1) 0
  base_offset * 16 + groupL_table.getD ((parity_offset >>> 1) &&& 0xF) 0

/-- bit_table of the RAMB36E2 data mapping (ramb36e2.cpp lines 30-48). -/
def ramb36e2_data_table : List Nat :=
  [0x00, 0x84, 0x0C, 0x90, 0x18, 0x9C, 0x24, 0xA8,
   0x3C, 0xC0, 0x48, 0xCC, 0x54, 0xD8, 0x60, 0xE4,
   0x06, 0x8A, 0x12, 0x96, 0x1E, 0xA2, 0x2A, 0xAE,
   0x42, 0xC6, 0x4E, 0xD2, 0x5A, 0xDE, 0x66, 0xEA,
   0x03, 0x87, 0x0F, 0x93, 0x1B, 0x9F, 0x27, 0xAB,
   0x3F, 0xC3, 0x4B, 0xCF, 0x57, 0xDB, 0x63, 0xE7,
   0x09, 0x8D, 0x15, 0x99, 0x21, 0xA5, 0x2D, 0xB1,
   0x45, 0xC9, 0x51, 0xD5, 0x5D, 0xE1, 0x69, 0xED,
   0x02, 0x86, 0x0E, 0x92, 0x1A, 0x9E, 0x26, 0xAA,
   0x3E, 0xC2, 0x4A, 0xCE, 0x56, 0xDA, 0x62, 0xE6,
   0x08, 0x8C, 0x14, 0x98, 0x20, 0xA4, 0x2C, 0xB0,
   0x44, 0xC8, 0x50, 0xD4, 0x5C, 0xE0, 0x68, 0xEC,
   0x05, 0x89, 0x11, 0x95, 0x1D, 0xA1, 0x29, 0xAD,
   0x41, 0xC5, 0x4D, 0xD1, 0x59, 0xDD, 0x65, 0xE9,
   0x0B, 0x8F, 0x17, 0x9B, 0x23, 0xA7, 0x2F, 0xB3,
   0x47, 0xCB, 0x53, 0xD7, 0x5F, 0xE3, 0x6B, 0xEF]

/-- bit_table of the RAMB36E2 parity mapping (ramb36e2.cpp lines 64-68). -/
def ramb36e2_parity_table : List Nat :=
  [0x30, 0xB4, 0x36, 0xBA, 0x33, 0xB7, 0x39, 0xBD,
   0x32, 0xB6, 0x38, 0xBC, 0x35, 0xB9, 0x3B, 0xBF]

/-- ramb36e2_map_data_bit (ramb36e2.cpp lines 27-57): block scale 0xBA0
for 128-entry blocks; result = (bit >> 7) * 0xBA0 + bit_table[bit & 0x7F].
The C++ guard throws out_of_range at or above 32768. -/
def ramb36e2_map_data_bit (data_offset : Nat) : Nat :=
  (data_offset >>> 7) * 0xBA0 + ramb36e2_data_table.getD (data_offset &&& 0x7F) 0

/-- ramb36e2_map_parity_bit (ramb36e2.cpp lines 60-77): result =
(bit >> 4) * 0xBA0 + bit_table[bit & 0xF]. The C++ guard throws
out_of_range at or above 4096. -/
def ramb36e2_map_parity_bit (parity_offset : Nat) : Nat :=
  (parity_offset >>> 4) * 0xBA0 + ramb36e2_parity_table.getD (parity_offset &&& 0xF) 0

/-- BRAM primitive kinds carrying their own bit mapping. -/
inductive BramKind where
  | ramb36e1
  | ramb36e2
deriving DecidableEq, Repr

/-- A block RAM tile, mirroring the fields of class bram that the
extract/inject path uses; the RAMB36 constructors fix 1024 words of 32
data and 4 parity bits (xc7z010.cpp line 188, ramb36e2.cpp line 83). -/
structure Bram where
  x : Nat
  y : Nat
  num_words : Nat
  data_bits : Nat
  parity_bits : Nat
  bitstream_offset : Nat
  slr : Nat
  kind : BramKind
deriving DecidableEq, Repr

/-- The ramb36e1 constructor: bram(x, y, 1024, 32, 4, ramb36,
bitstream_offset, slr). -/
def mk_ramb36e1 (x y bitstream_offset slr : Nat) : Bram :=
  { x := x, y := y, num_words := 1024, data_bits := 32, parity_bits := 4
  , bitstream_offset := bitstream_offset, slr := slr, kind := BramKind.ramb36e1 }

/-- The ramb36e2 constructor: bram(x, y, 1024, 32, 4, ramb36,
bitstream_offset, slr). -/
def mk_ramb36e2 (x y bitstream_offset slr : Nat) : Bram :=
  { x := x, y := y, num_words := 1024, data_bits := 32, parity_bits := 4
  , bitstream_offset := bitstream_offset, slr := slr, kind := BramKind.ramb36e2 }

/-- ramb36e1::map_to_bitstream / ramb36e2::map_to_bitstream: the
bitstream offset of the tile plus the primitive-specific data or parity
bit mapping. -/
def Bram.map_to_bitstream (t : Bram) (bit_addr : Nat) (is_parity : Bool) : Nat :=
  t.bitstream_offset +
    (match t.kind, is_parity with
     | BramKind.ramb36e1, false => ramb36e1_map_data_bit bit_addr
     | BramKind.ramb36e1, true => ramb36e1_map_parity_bit bit_addr
     | BramKind.ramb36e2, false => ramb36e2_map_data_bit bit_addr
     | BramKind.ramb36e2, true => ramb36e2_map_parity_bit bit_addr)

/-- The extracted-array update of bram::extract: set bit (i % 8) of byte
(i / 8). -/
def set_extracted_bit (acc : List Nat) (i : Nat) : List Nat :=
  acc.set (i / 8) ((acc.getD (i / 8) 0) ||| (1 <<< (i % 8)))

/-- bram::extract (bram.cpp lines 43-64): read every mapped bit of the
tile from the bitstream and pack the values into a little-endian-bit byte
vector of (bit_length + 7) / 8 bytes. -/
def bram_extract (bytes : List Nat) (si : SlrInfo) (t : Bram)
    (extract_parity : Bool) : Except BsError (List Nat) :=
  let bit_length := (if extract_parity then t.parity_bits else t.data_bits) * t.num_words
  let byte_length := (bit_length + 7) / 8
  (List.range bit_length).foldlM
    (fun acc i => do
      let v ← read_frame_data_bit bytes si (t.map_to_bitstream i extract_parity)
      pure (if v then set_extracted_bit acc i else acc))
    (List.replicate byte_length 0)

/-- The bit of the frame data a successful read_frame_data_bit returns:
bit (b % 8) of the swap-addressed byte of the SLR. -/
def stored_bit (bytes : List Nat) (si : SlrInfo) (b : Nat) : Bool :=
  Nat.testBit (bytes.getD (map_frame_data_offset (b / 8) + si.frame_data_offset) 0)
    (b % 8)

/-- bram::inject (bram.cpp lines 67-89): reject data whose size differs
from the tile size, then write every bit of the data vector to its mapped
position in the bitstream. -/
def bram_inject (bytes : List Nat) (si : SlrInfo) (t : Bram)
    (inject_parity : Bool) (data : List Nat) : Except BsError (List Nat) :=
  let bit_length := (if inject_parity then t.parity_bits else t.data_bits) * t.num_words
  let byte_length := (bit_length + 7) / 8
  if data.length ≠ byte_length then
    Except.error BsError.bram_size_mismatch
  else
    (List.range bit_length).foldlM
      (fun buf i =>
        write_frame_data_bit buf si (t.map_to_bitstream i inject_parity)
          (Nat.testBit (data.getD (i / 8) 0) (i % 8)))
      bytes

/-! ## Theorems on the word-level decoder and the engine -/

/-- C2. TYPE1 header decoding. The claim is right about the opcode
(bits [28:27]) and the register number (bits [17:13]), and the sibling
decoder bitstream::parse (config_reg.cpp line 228) indeed reads the full
11-bit word count hdr[10:0]; but bitstream_engine::parse_packet masks the
word count with 0x3FF (bitstream_engine.cpp line 109), a 10-bit field that
contradicts the bit-field diagram directly above it. At the header
0x30000400 (TYPE1 write, word-count field 1024) the engine decodes a word
count of 0 and therefore demands a TYPE2 packet instead of consuming a
1024-word payload. -/
theorem C2_type1_word_count_mask_code_bug :
    be_pkt_op 0x30000400 = 2
      ∧ be_pkt_reg 0x30000400 = 0
      ∧ (0x30000400 : Nat) % 2 ^ 11 = 1024
      ∧ bs_type1_word_count 0x30000400 = 1024
      ∧ be_word_count 0x30000400 = 0
      ∧ parse_packet [0x30000400] = Except.error BitstreamError.expected_type2_eof := by
  refine ⟨?_, ?_, ?_, ?_, ?_, ?_⟩ <;> decide

/-- C4. TYPE2 packet rule of bitstream_engine::parse_packet: a TYPE2
header at a packet boundary is a malformed-packet error; immediately after
a TYPE1 whose decoded word count is zero and whose opcode is not nop, a
TYPE2 header is consumed as part of the same event, the word count is
taken from its bits [26:0], opcode and register are inherited from the
TYPE1 header, and the pair is emitted as a single event; a zero-count
non-nop TYPE1 at the end of the input, or followed by a non-TYPE2 word,
is a malformed-packet error. -/
theorem C4_type2_pairing_rule (hdr hdr2 : Nat) (ws : List Nat) :
    (be_packet_type hdr = 2 →
      parse_packet (hdr :: ws) = Except.error BitstreamError.unhandled_packet_type)
    ∧ (be_packet_type hdr = 1 → be_word_count hdr = 0 → be_pkt_op hdr ≠ 0 →
        be_packet_type hdr2 = 2 → be_type2_word_count hdr2 ≤ ws.length →
        parse_packet (hdr :: hdr2 :: ws)
          = Except.ok (2 + be_type2_word_count hdr2,
              PacketStep.event (be_pkt_op hdr) (be_pkt_reg hdr)
                (ws.take (be_type2_word_count hdr2))))
    ∧ (be_packet_type hdr = 1 → be_word_count hdr = 0 → be_pkt_op hdr ≠ 0 →
        parse_packet [hdr] = Except.error BitstreamError.expected_type2_eof)
    ∧ (be_packet_type hdr = 1 → be_word_count hdr = 0 → be_pkt_op hdr ≠ 0 →
        be_packet_type hdr2 ≠ 2 →
        parse_packet (hdr :: hdr2 :: ws)
          = Except.error BitstreamError.expected_type2_bad_type) := by
  have hsync : be_packet_type FPGA_SYNC_WORD_LE = 5 := by decide
  refine ⟨?_, ?_, ?_, ?_⟩
  · intro ht
    have hne : hdr ≠ FPGA_SYNC_WORD_LE := by
      intro he; rw [he, hsync] at ht; omega
    unfold parse_packet
    dsimp only
    rw [if_neg hne, if_neg (by rw [ht]; omega)]
  · intro ht hwc hop ht2 hlen
    have hne : hdr ≠ FPGA_SYNC_WORD_LE := by
      intro he; rw [he, hsync] at ht; omega
    unfold parse_packet
    dsimp only
    rw [if_neg hne, if_pos ht, if_pos (show be_word_count hdr = 0 ∧ ¬ be_pkt_op hdr = 0 from ⟨hwc, hop⟩),
        if_pos ht2, if_neg (Nat.not_lt.mpr hlen)]
  · intro ht hwc hop
    have hne : hdr ≠ FPGA_SYNC_WORD_LE := by
      intro he; rw [he, hsync] at ht; omega
    unfold parse_packet
    dsimp only
    rw [if_neg hne, if_pos ht, if_pos (show be_word_count hdr = 0 ∧ ¬ be_pkt_op hdr = 0 from ⟨hwc, hop⟩)]
  · intro ht hwc hop ht2
    have hne : hdr ≠ FPGA_SYNC_WORD_LE := by
      intro he; rw [he, hsync] at ht; omega
    unfold parse_packet
    dsimp only
    rw [if_neg hne, if_pos ht, if_pos (show be_word_count hdr = 0 ∧ ¬ be_pkt_op hdr = 0 from ⟨hwc, hop⟩),
        if_neg ht2]

/-- Witness for C4 at concrete headers: TYPE1 write to FDRI with zero
word count (0x30004000) paired with the TYPE2 header 0x50000002 over a
2-word payload, and the same TYPE1 at end of input or followed by a
non-TYPE2 word. -/
theorem C4_type2_pairing_rule_witness :
    parse_packet [0x30004000, 0x50000002, 7, 8]
      = Except.ok (4, PacketStep.event 2 2 [7, 8])
    ∧ parse_packet [0x30004000] = Except.error BitstreamError.expected_type2_eof
    ∧ parse_packet [0x50000002, 7, 8]
      = Except.error BitstreamError.unhandled_packet_type := by
  have h1 := (C4_type2_pairing_rule 0x30004000 0x50000002 [7, 8]).2.1
    (by decide) (by decide) (by decide) (by decide) (by decide)
  have h2 := (C4_type2_pairing_rule 0x30004000 0x50000002 []).2.2.1
    (by decide) (by decide) (by decide)
  have h3 := (C4_type2_pairing_rule 0x50000002 0 [7, 8]).1 (by decide)
  refine ⟨?_, h2, h3⟩
  rw [h1]
  decide

/-- A word list without the sync word synchronizes to its end. -/
theorem synchronize_eq_length (ws : List Nat)
    (h : ∀ w ∈ ws, w ≠ FPGA_SYNC_WORD_LE) : synchronize ws = ws.length := by
  induction ws with
  | nil => rfl
  | cons w ws ih =>
    have hw : w ≠ FPGA_SYNC_WORD_LE := h w (List.mem_cons_self w ws)
    have := ih (fun x hx => h x (List.mem_cons_of_mem w hx))
    simp [synchronize, hw, this]
    omega

/-- C10. A missing sync word is not an error: on any word sequence that
contains no sync word 0xAA995566, bitstream_engine::process_packets with
is_synchronized = false scans to the end of the input during
synchronization, runs the packet loop on an empty remainder, and returns
the end-of-input position with success = true and an empty event trace. -/
theorem C10_missing_sync_is_success (ws : List Nat)
    (h : ∀ w ∈ ws, w ≠ FPGA_SYNC_WORD_LE) :
    process_packets ws false = Except.ok (ws.length, true, []) := by
  unfold process_packets
  simp only [Bool.false_eq_true, if_false, synchronize_eq_length ws h,
    List.drop_length]
  simp [process_loop]

/-- Witness for C10: the three-word stream [1, 2, 3] has no sync word and
is processed to position 3 with success and no events. -/
theorem C10_missing_sync_is_success_witness :
    process_packets [1, 2, 3] false = Except.ok (3, true, []) := by
  have := C10_missing_sync_is_success [1, 2, 3] (by decide)
  simpa using this

/-- C3. SLR context save and restore: a write event to reserved register
0b11110 on an engine whose active context is c processes the payload
through the base engine on a fresh context with slr_index = c.slr_index +
1 — and that fresh context has far = 0, no idcode, read_only write mode
and an empty written-frame set — while the engine state returned to the
caller is the parent state unchanged, both when the nested processing
returns normally and when it propagates an error. -/
theorem C3_slr_context_save_restore (eng : EngState) (c : ConfigContext)
    (data : List Nat) (h : eng.ctx = some c) :
    ce_on_config_write eng REG_RSVD30 data
      = (eng, Except.map (fun _ => ())
          (ce_process_packets ⟨some (ConfigContext.mk_fresh (c.slr_index + 1))⟩ data false).2)
    ∧ ConfigContext.mk_fresh (c.slr_index + 1)
      = { slr_index := c.slr_index + 1, far := 0, idcode := none
        , write_mode := WMode.read_only, write_bitmap := ∅ } := by
  constructor
  · cases eng with
    | mk ctxf =>
      simp only at h
      subst h
      unfold ce_on_config_write ce_on_config_slr
      norm_num [REG_RSVD30, REG_CMD, REG_IDCODE, REG_FAR]
      rcases hr : ce_process_packets ⟨some (ConfigContext.mk_fresh (c.slr_index + 1))⟩ data false with ⟨eng2, r⟩
      rcases r with e | v <;> simp [hr, Except.map]
  · rfl

/-- Witness for C3: an engine holding the fresh context of SLR 5 and an
empty nested payload. -/
theorem C3_slr_context_save_restore_witness :
    ce_on_config_write ⟨some (ConfigContext.mk_fresh 5)⟩ REG_RSVD30 []
      = (⟨some (ConfigContext.mk_fresh 5)⟩, Except.map (fun _ => ())
          (ce_process_packets ⟨some (ConfigContext.mk_fresh 6)⟩ [] false).2)
    ∧ ConfigContext.mk_fresh 6
      = { slr_index := 6, far := 0, idcode := none
        , write_mode := WMode.read_only, write_bitmap := ∅ } :=
  C3_slr_context_save_restore ⟨some (ConfigContext.mk_fresh 5)⟩
    (ConfigContext.mk_fresh 5) [] rfl

/-! ## Theorems on the BRAM bit mapping -/

/-- All groupL_table entries (and the out-of-range default) are below 16. -/
theorem groupL_table_lt (k : Nat) (h : k < 16) : groupL_table.getD k 0 < 16 := by
  revert h; revert k; decide

/-- All groupH_table entries are below the block scale 0xCA. -/
theorem groupH_table_lt (k : Nat) (h : k < 16) : groupH_table.getD k 0 < 202 := by
  revert h; revert k; decide

/-- Both groupP_table entries are below the block scale 0xCA. -/
theorem groupP_table_lt (k : Nat) (h : k < 2) : groupP_table.getD k 0 < 202 := by
  revert h; revert k; decide

/-- No groupH_table entry coincides with a groupP_table entry. -/
theorem groupH_groupP_disjoint (k m : Nat) (hk : k < 16) (hm : m < 2) :
    groupH_table.getD k 0 ≠ groupP_table.getD m 0 := by
  revert hm; revert m; revert hk; revert k; decide

/-- All RAMB36E2 data-table entries are below the block scale 0xBA0. -/
theorem ramb36e2_data_table_lt (k : Nat) (h : k < 128) :
    ramb36e2_data_table.getD k 0 < 2976 := by
  revert h; revert k; decide

/-- All RAMB36E2 parity-table entries are below the block scale 0xBA0. -/
theorem ramb36e2_parity_table_lt (k : Nat) (h : k < 16) :
    ramb36e2_parity_table.getD k 0 < 2976 := by
  revert h; revert k; decide

/-- No RAMB36E2 data-table entry coincides with a parity-table entry. -/
theorem ramb36e2_tables_disjoint (k m : Nat) (hk : k < 128) (hm : m < 16) :
    ramb36e2_data_table.getD k 0 ≠ ramb36e2_parity_table.getD m 0 := by
  revert hm; revert m; revert hk; revert k; decide

/-- An and-mask by 15 keeps the value below 16. -/
theorem and15_lt (x : Nat) : x &&& 15 < 16 :=
  Nat.lt_succ_of_le (Nat.and_le_right)

/-- An and-mask by 1 keeps the value below 2. -/
theorem and1_lt (x : Nat) : x &&& 1 < 2 :=
  Nat.lt_succ_of_le (Nat.and_le_right)

/-- An and-mask by 127 keeps the value below 128. -/
theorem and127_lt (x : Nat) : x &&& 127 < 128 :=
  Nat.lt_succ_of_le (Nat.and_le_right)

/-- The RAMB36E1 data and parity mappings never produce the same offset:
the lower nibbles force equal groupL entries and the shifted parts land in
distinct residues because no groupH value equals a groupP value. -/
theorem ramb36e1_data_parity_disjoint (i j : Nat) :
    ramb36e1_map_data_bit i ≠ ramb36e1_map_parity_bit j := by
  unfold ramb36e1_map_data_bit ramb36e1_map_parity_bit
  dsimp only
  intro heq
  have h1 : groupH_table.getD (i &&& 15) 0 < 202 := groupH_table_lt _ (and15_lt i)
  have h2 : groupP_table.getD (j &&& 1) 0 < 202 := groupP_table_lt _ (and1_lt j)
  have h3 : groupL_table.getD ((i >>> 4) &&& 15) 0 < 16 := groupL_table_lt _ (and15_lt _)
  have h4 : groupL_table.getD ((j >>> 1) &&& 15) 0 < 16 := groupL_table_lt _ (and15_lt _)
  have h5 : groupH_table.getD (i &&& 15) 0 ≠ groupP_table.getD (j &&& 1) 0 :=
    groupH_groupP_disjoint _ _ (and15_lt i) (and1_lt j)
  omega

/-- The RAMB36E2 data and parity mappings never produce the same offset:
both table values stay below the 0xBA0 block scale and never coincide. -/
theorem ramb36e2_data_parity_disjoint (i j : Nat) :
    ramb36e2_map_data_bit i ≠ ramb36e2_map_parity_bit j := by
  unfold ramb36e2_map_data_bit ramb36e2_map_parity_bit
  intro heq
  have h1 : ramb36e2_data_table.getD (i &&& 127) 0 < 2976 :=
    ramb36e2_data_table_lt _ (and127_lt i)
  have h2 : ramb36e2_parity_table.getD (j &&& 15) 0 < 2976 :=
    ramb36e2_parity_table_lt _ (and15_lt j)
  have h3 : ramb36e2_data_table.getD (i &&& 127) 0 ≠ ramb36e2_parity_table.getD (j &&& 15) 0 :=
    ramb36e2_tables_disjoint _ _ (and127_lt i) (and15_lt j)
  omega

/-- C8. Data/parity disjointness of the BRAM bit mapping: for every BRAM
tile (RAMB36E1 and RAMB36E2 primitives), every in-range data bit index i
and every in-range parity bit index j, the mapped bitstream offsets of the
data bit and of the parity bit differ. -/
theorem C8_data_parity_offsets_disjoint (t : Bram) (i j : Nat)
    (hi : i < 32768) (hj : j < 4096) :
    t.map_to_bitstream i false ≠ t.map_to_bitstream j true := by
  intro heq
  unfold Bram.map_to_bitstream at heq
  have heq2 := Nat.add_left_cancel heq
  cases hk : t.kind <;> rw [hk] at heq2 <;> dsimp only at heq2
  · exact ramb36e1_data_parity_disjoint i j heq2
  · exact ramb36e2_data_parity_disjoint i j heq2

/-- Witness for C8: the RAMB36E1 tile X0Y0 of the XC7Z010 catalog
(bitstream offset 0x00EB0AC0) at data bit 0 and parity bit 0. -/
theorem C8_data_parity_offsets_disjoint_witness :
    (mk_ramb36e1 0 0 0x00EB0AC0 0).map_to_bitstream 0 false
      ≠ (mk_ramb36e1 0 0 0x00EB0AC0 0).map_to_bitstream 0 true :=
  C8_data_parity_offsets_disjoint (mk_ramb36e1 0 0 0x00EB0AC0 0) 0 0
    (by decide) (by decide)

/-- C9 counterexample: at data bit address 1 the mapped offset is 0xB0,
whose lower 4 bits are 0, while groupL_table[1 & 0xF] = 8 — so the lower
4 bits of the result do not come from groupL_table indexed by the low
nibble of the bit address (they come from groupL_table indexed by bits
[7:4], and groupH_table takes the low nibble). -/
theorem C9_table_roles_counterexample :
    ramb36e1_map_data_bit 1 = 0xB0
      ∧ ramb36e1_map_data_bit 1 % 16 = 0
      ∧ groupL_table.getD (1 &&& 0xF) 0 = 8
      ∧ ramb36e1_map_data_bit 1 % 16 ≠ groupL_table.getD (1 &&& 0xF) 0 := by
  refine ⟨?_, ?_, ?_, ?_⟩ <;> decide

/-- C9 as amended. RAMB36E1 mapping table roles: for every in-range data
bit address, the lower 4 bits of the mapped offset equal
groupL_table[(bit >> 4) & 0xF] and the upper bits are
(bit / 256) * 0xCA + groupH_table[bit & 0xF] (the 0xCA-scaled 256-bit
block offset plus the groupH entry for the low nibble); parity bits use
the 2-entry groupP_table indexed by bit & 1 together with the same
groupL_table indexed by (bit >> 1) & 0xF. -/
theorem C9_mapping_table_roles (i j : Nat) (hi : i < 32768) (hj : j < 4096) :
    ramb36e1_map_data_bit i % 16 = groupL_table.getD ((i >>> 4) &&& 0xF) 0
    ∧ ramb36e1_map_data_bit i / 16 = (i / 256) * 0xCA + groupH_table.getD (i &&& 0xF) 0
    ∧ ramb36e1_map_parity_bit j % 16 = groupL_table.getD ((j >>> 1) &&& 0xF) 0
    ∧ ramb36e1_map_parity_bit j / 16 = (j / 32) * 0xCA + groupP_table.getD (j &&& 0x1) 0 := by
  have h3 : groupL_table.getD ((i >>> 4) &&& 15) 0 < 16 := groupL_table_lt _ (and15_lt _)
  have h4 : groupL_table.getD ((j >>> 1) &&& 15) 0 < 16 := groupL_table_lt _ (and15_lt _)
  unfold ramb36e1_map_data_bit ramb36e1_map_parity_bit
  dsimp only
  refine ⟨?_, ?_, ?_, ?_⟩ <;> omega

/-- Witness for C9 at data bit 1 and parity bit 1. -/
theorem C9_mapping_table_roles_witness :
    ramb36e1_map_data_bit 1 % 16 = groupL_table.getD ((1 >>> 4) &&& 0xF) 0
    ∧ ramb36e1_map_data_bit 1 / 16 = (1 / 256) * 0xCA + groupH_table.getD (1 &&& 0xF) 0
    ∧ ramb36e1_map_parity_bit 1 % 16 = groupL_table.getD ((1 >>> 1) &&& 0xF) 0
    ∧ ramb36e1_map_parity_bit 1 / 16 = (1 / 32) * 0xCA + groupP_table.getD (1 &&& 0x1) 0 :=
  C9_mapping_table_roles 1 1 (by decide) (by decide)

/-! ## Theorems on the readback adjustment (pass 1) -/

set_option maxRecDepth 200000 in
/-- C5 counterexample: loading the concrete XC7Z020 readback stream strips
404 bytes (frame_size = 4 * words_per_frame, one full frame) from the
FDRO payload start at byte 16, recording frame_data_offset 420 — not the
117 = 16 + 101 that stripping words_per_frame bytes would give. -/
theorem C5_readback_strip_counterexample :
    bitstream_load readback_example_stream true
      = Except.ok ([{ sync_offset := 4, frame_data_offset := 420, frame_data_size := 4
                    , idcode := 0x03727093 }], true)
    ∧ (420 : Nat) = 16 + 4 * 101
    ∧ (420 : Nat) ≠ 16 + 101 := by
  refine ⟨by rfl, by norm_num, by norm_num⟩

/-- C5 as amended. Readback adjustment: when pass 1 of the bitstream
constructor sees an IDCODE write followed by an FDRO read (readback
accepted), it strips exactly frame_size = 4 * words_per_frame leading
BYTES (one device frame) from the recorded frame data: the recorded
frame_data_byte_offset is the FDRO payload start plus frame_size, the
size shrinks by frame_size, and the is_readback flag is set; an FDRI
write in a later sub-stream of the same bitstream is rejected as a
mixed FDRI/FDRO stream. -/
theorem C5_readback_strip_amended
    (bytes : List Nat) (p1 p2 p3 : Packet) (idc fs : Nat)
    (h1op : p1.op = 2) (h1reg : p1.reg = 12) (h1wc : 0 < p1.word_count)
    (h1idx : p1.stream_index = 0)
    (hidc : read_be32 bytes p1.payload_start = idc)
    (h2op : p2.op = 0) (h2reg : p2.reg = 3) (h2wc : 0 < p2.word_count)
    (h2idx : p2.stream_index = 0)
    (hfs : fpga_frame_size idc = some fs) (hsize : fs ≤ p2.payload_size)
    (h3op : p3.op = 2) (h3reg : p3.reg = 2) (h3wc : 0 < p3.word_count)
    (h3idx : p3.stream_index = 1) :
    (pass1_fold bytes true [p1, p2] pass1_init).map
        (fun st => ((st.substreams.getD 0 SlrInfo.init).frame_data_offset,
                    (st.substreams.getD 0 SlrInfo.init).frame_data_size,
                    st.is_readback))
      = Except.ok (p2.storage_offset + 4 + fs, p2.payload_size - fs, true)
    ∧ pass1_fold bytes true [p1, p2, p3] pass1_init
      = Except.error BsError.mixed_fdri_fdro := by
  constructor
  · simp only [pass1_fold, pass1_step, pass1_init, h1op, h1reg, h1wc, h1idx, hidc,
      h2op, h2reg, h2wc, h2idx, hfs, h3op, h3reg, h3wc, h3idx, SlrInfo.init,
      apply_ite SlrInfo.frame_data_size, apply_ite SlrInfo.idcode, ite_self]
    norm_num [Nat.not_lt_of_le hsize, h1wc, h2wc]
    rw [hfs]
    simp [Nat.not_lt_of_le hsize, Except.map]
  · simp only [pass1_fold, pass1_step, pass1_init, h1op, h1reg, h1wc, h1idx, hidc,
      h2op, h2reg, h2wc, h2idx, hfs, h3op, h3reg, h3wc, h3idx, SlrInfo.init,
      apply_ite SlrInfo.frame_data_size, apply_ite SlrInfo.idcode, ite_self]
    norm_num [Nat.not_lt_of_le hsize, h1wc, h2wc]
    rw [hfs]
    simp [Nat.not_lt_of_le hsize, Except.map]

/-- Witness for the amended C5 at the concrete packets of the example
readback stream (IDCODE write at offset 4, FDRO read at offset 12, and a
hypothetical FDRI write in sub-stream 1). -/
theorem C5_readback_strip_amended_witness :
    (pass1_fold [0xAA, 0x99, 0x55, 0x66, 0x30, 0x01, 0x80, 0x01,
                 0x03, 0x72, 0x70, 0x93] true
        [{ stream_index := 0, offset := 4, storage_offset := 4, hdr := 0x30018001
         , packet_type := 1, op := 2, reg := 12, word_count := 1
         , payload_start := 8, payload_size := 4 },
         { stream_index := 0, offset := 12, storage_offset := 12, hdr := 0x20006066
         , packet_type := 1, op := 0, reg := 3, word_count := 102
         , payload_start := 16, payload_size := 408 }] pass1_init).map
        (fun st => ((st.substreams.getD 0 SlrInfo.init).frame_data_offset,
                    (st.substreams.getD 0 SlrInfo.init).frame_data_size,
                    st.is_readback))
      = Except.ok (12 + 4 + 404, 408 - 404, true)
    ∧ pass1_fold [0xAA, 0x99, 0x55, 0x66, 0x30, 0x01, 0x80, 0x01,
                  0x03, 0x72, 0x70, 0x93] true
        [{ stream_index := 0, offset := 4, storage_offset := 4, hdr := 0x30018001
         , packet_type := 1, op := 2, reg := 12, word_count := 1
         , payload_start := 8, payload_size := 4 },
         { stream_index := 0, offset := 12, storage_offset := 12, hdr := 0x20006066
         , packet_type := 1, op := 0, reg := 3, word_count := 102
         , payload_start := 16, payload_size := 408 },
         { stream_index := 1, offset := 4, storage_offset := 440, hdr := 0x30004065
         , packet_type := 1, op := 2, reg := 2, word_count := 101
         , payload_start := 444, payload_size := 404 }] pass1_init
      = Except.error BsError.mixed_fdri_fdro :=
  C5_readback_strip_amended
    [0xAA, 0x99, 0x55, 0x66, 0x30, 0x01, 0x80, 0x01, 0x03, 0x72, 0x70, 0x93]
    { stream_index := 0, offset := 4, storage_offset := 4, hdr := 0x30018001
    , packet_type := 1, op := 2, reg := 12, word_count := 1
    , payload_start := 8, payload_size := 4 }
    { stream_index := 0, offset := 12, storage_offset := 12, hdr := 0x20006066
    , packet_type := 1, op := 0, reg := 3, word_count := 102
    , payload_start := 16, payload_size := 408 }
    { stream_index := 1, offset := 4, storage_offset := 440, hdr := 0x30004065
    , packet_type := 1, op := 2, reg := 2, word_count := 101
    , payload_start := 444, payload_size := 404 }
    0x03727093 404 rfl rfl (by decide) rfl (by decide) rfl rfl (by decide) rfl
    (by decide) (by decide) rfl rfl (by decide) rfl

/-! ## Frame-data bit access lemmas (towards the extract/inject round
trip) -/

/-- Bits 0..7 of the byte mask 255 are all set. -/
theorem testBit_255 (s : Nat) (hs : s < 8) : Nat.testBit 255 s = true := by
  interval_cases s <;> decide

/-- The 32-bit byte swap moves a byte index by at most 3. -/
theorem map_frame_data_offset_le (x : Nat) : map_frame_data_offset x ≤ x + 3 := by
  unfold map_frame_data_offset
  omega

/-- The 32-bit byte swap is injective. -/
theorem map_frame_data_offset_inj (x y : Nat)
    (h : map_frame_data_offset x = map_frame_data_offset y) : x = y := by
  unfold map_frame_data_offset at h
  omega

/-- An in-range byte offset makes check_frame_data_range succeed. -/
theorem check_frame_data_range_true (si : SlrInfo) (o : Nat)
    (h : o < si.frame_data_size) : check_frame_data_range si o 1 = true := by
  simp [check_frame_data_range]
  omega

/-- A successful read_frame_data_bit returns the stored bit. -/
theorem read_frame_data_bit_eq (bytes : List Nat) (si : SlrInfo) (b : Nat)
    (hchk : check_frame_data_range si (map_frame_data_offset (b / 8)) 1 = true) :
    read_frame_data_bit bytes si b = Except.ok (stored_bit bytes si b) := by
  simp [read_frame_data_bit, hchk, stored_bit]

/-- Full specification of write_frame_data_bit under a passing range
check: it succeeds, preserves the buffer length, stores the given value at
the addressed bit (when the SLR frame data actually fits in the buffer),
and leaves the stored bit of every other bit offset unchanged. -/
theorem write_frame_data_bit_spec (bytes : List Nat) (si : SlrInfo) (b : Nat) (v : Bool)
    (hchk : check_frame_data_range si (map_frame_data_offset (b / 8)) 1 = true) :
    ∃ out, write_frame_data_bit bytes si b v = Except.ok out
      ∧ out.length = bytes.length
      ∧ (si.frame_data_offset + si.frame_data_size ≤ bytes.length →
          stored_bit out si b = v)
      ∧ (∀ b2, b2 ≠ b → stored_bit out si b2 = stored_bit bytes si b2) := by
  have hs8 : b % 8 < 8 := Nat.mod_lt _ (by norm_num)
  have hlt : map_frame_data_offset (b / 8) < si.frame_data_size := by
    simp [check_frame_data_range] at hchk
    omega
  have hw : write_frame_data_bit bytes si b v
      = Except.ok (bytes.set (map_frame_data_offset (b / 8) + si.frame_data_offset)
          (if v then
            (bytes.getD (map_frame_data_offset (b / 8) + si.frame_data_offset) 0)
              ||| 2 ^ (b % 8)
          else
            (bytes.getD (map_frame_data_offset (b / 8) + si.frame_data_offset) 0)
              &&& (255 ^^^ 2 ^ (b % 8)))) := by
    simp [write_frame_data_bit, hchk, Nat.one_shiftLeft]
  refine ⟨_, hw, List.length_set _ _ _, ?_, ?_⟩
  · intro hlen
    have hidx : map_frame_data_offset (b / 8) + si.frame_data_offset < bytes.length := by
      omega
    unfold stored_bit
    rw [List.getD, List.get?_eq_getElem?, List.getElem?_set_self', List.getElem?_eq_getElem hidx]
    cases v with
    | true => simp [Nat.testBit_lor]
    | false => simp [Nat.testBit_land, Nat.testBit_xor, testBit_255 _ hs8]
  · intro b2 hne
    unfold stored_bit
    by_cases hb : b2 / 8 = b / 8
    · have hsne : b2 % 8 ≠ b % 8 := by omega
      have hidx2 : map_frame_data_offset (b2 / 8) + si.frame_data_offset
          = map_frame_data_offset (b / 8) + si.frame_data_offset := by rw [hb]
      rw [hidx2]
      by_cases hlt2 : map_frame_data_offset (b / 8) + si.frame_data_offset < bytes.length
      · rw [List.getD, List.get?_eq_getElem?, List.getElem?_set_self', List.getElem?_eq_getElem hlt2]
        cases v with
        | true =>
          simp [Nat.testBit_lor, Nat.testBit_two_pow_of_ne (Ne.symm hsne), List.getD,
            List.getElem?_eq_getElem hlt2]
        | false =>
          simp [Nat.testBit_land, Nat.testBit_xor, Nat.testBit_two_pow_of_ne (Ne.symm hsne),
            testBit_255 _ (Nat.mod_lt b2 (by norm_num)), List.getD,
            List.getElem?_eq_getElem hlt2]
      · rw [List.set_eq_of_length_le (Nat.le_of_not_lt hlt2)]
    · have hidxne : map_frame_data_offset (b2 / 8) + si.frame_data_offset
          ≠ map_frame_data_offset (b / 8) + si.frame_data_offset := by
        intro hcon
        exact hb (map_frame_data_offset_inj _ _ (by omega))
      rw [List.getD, List.get?_eq_getElem?, List.getElem?_set_ne (by omega), ← List.get?_eq_getElem?, ← List.getD]

/-- Specification of the inject loop over a list of bit indices whose
mapped targets are pairwise distinct and range-checked: the fold of
write_frame_data_bit succeeds, preserves the buffer length, stores every
data bit at its mapped position, and leaves all other stored bits
unchanged. -/
theorem inject_fold_spec (si : SlrInfo) (tmap : Nat → Nat) (dbit : Nat → Bool)
    (l : List Nat) :
    ∀ buf : List Nat,
      (∀ i ∈ l, check_frame_data_range si (map_frame_data_offset (tmap i / 8)) 1 = true) →
      si.frame_data_offset + si.frame_data_size ≤ buf.length →
      List.Pairwise (fun i j => tmap i ≠ tmap j) l →
      ∃ out,
        l.foldlM (fun buf2 i => write_frame_data_bit buf2 si (tmap i) (dbit i)) buf
          = Except.ok out
        ∧ out.length = buf.length
        ∧ (∀ i ∈ l, stored_bit out si (tmap i) = dbit i)
        ∧ (∀ b, (∀ i ∈ l, tmap i ≠ b) → stored_bit out si b = stored_bit buf si b) := by
  induction l with
  | nil =>
    intro buf _ _ _
    exact ⟨buf, rfl, rfl, by simp, fun b _ => rfl⟩
  | cons i rest ih =>
    intro buf hchk hlen hpw
    rcases List.pairwise_cons.mp hpw with ⟨hhead, htail⟩
    obtain ⟨out1, hw, hlen1, hself, hother⟩ :=
      write_frame_data_bit_spec buf si (tmap i) (dbit i)
        (hchk i (List.mem_cons_self i rest))
    obtain ⟨out, hfold, hlen2, hall, huntouched⟩ :=
      ih out1 (fun j hj => hchk j (List.mem_cons_of_mem i hj)) (by omega) htail
    refine ⟨out, ?_, by omega, ?_, ?_⟩
    · rw [List.foldlM_cons, hw]
      simpa using hfold
    · intro j hj
      rcases List.mem_cons.mp hj with hji | hjr
      · subst hji
        rw [huntouched (tmap j) (fun k hk => (hhead k hk).symm), hself hlen]
      · exact hall j hjr
    · intro b hb
      rw [huntouched b (fun j hj => hb j (List.mem_cons_of_mem i hj)),
          hother b (fun hc => hb i (List.mem_cons_self i rest) hc.symm)]

/-- The extract loop with all reads range-checked equals the pure fold
over the stored bits. -/
theorem extract_foldlM_eq (si : SlrInfo) (tmap : Nat → Nat) (buf : List Nat)
    (l : List Nat)
    (hchk : ∀ i ∈ l, check_frame_data_range si (map_frame_data_offset (tmap i / 8)) 1 = true) :
    ∀ acc : List Nat,
      l.foldlM (fun acc2 i => do
          let v ← read_frame_data_bit buf si (tmap i)
          pure (if v then set_extracted_bit acc2 i else acc2)) acc
        = Except.ok (l.foldl
            (fun acc2 i => if stored_bit buf si (tmap i) then set_extracted_bit acc2 i
                           else acc2) acc) := by
  induction l with
  | nil => intro acc; rfl
  | cons i rest ih =>
    intro acc
    rw [List.foldlM_cons, read_frame_data_bit_eq buf si (tmap i)
      (hchk i (List.mem_cons_self i rest))]
    have := ih (fun j hj => hchk j (List.mem_cons_of_mem i hj))
      (if stored_bit buf si (tmap i) then set_extracted_bit acc i else acc)
    simpa [List.foldl_cons] using this

/-- The pure extract fold preserves the accumulator length. -/
theorem extract_fold_length (r : Nat → Bool) (l : List Nat) :
    ∀ acc : List Nat,
      (l.foldl (fun acc2 i => if r i then set_extracted_bit acc2 i else acc2) acc).length
        = acc.length := by
  induction l with
  | nil => intro acc; rfl
  | cons i rest ih =>
    intro acc
    rw [List.foldl_cons]
    rw [ih]
    by_cases hr : r i <;> simp [hr, set_extracted_bit, List.length_set]

/-- Bit-level characterization of the pure extract fold: bit s of byte k
of the result is set exactly when bit index 8k + s occurs in the list with
its read value true, and otherwise keeps the accumulator bit. -/
theorem extract_fold_testBit (r : Nat → Bool) (l : List Nat) :
    ∀ (acc : List Nat) (k s : Nat), s < 8 → k < acc.length →
      Nat.testBit
          ((l.foldl (fun acc2 i => if r i then set_extracted_bit acc2 i else acc2)
            acc).getD k 0) s
        = (if (8 * k + s) ∈ l ∧ r (8 * k + s) = true then true
           else Nat.testBit (acc.getD k 0) s) := by
  induction l with
  | nil =>
    intro acc k s hs hk
    simp
  | cons i rest ih =>
    intro acc k s hs hk
    rw [List.foldl_cons]
    have hlen1 : (if r i then set_extracted_bit acc i else acc).length = acc.length := by
      by_cases hr : r i <;> simp [hr, set_extracted_bit, List.length_set]
    rw [ih _ k s hs (by omega)]
    by_cases hmem : (8 * k + s) ∈ rest ∧ r (8 * k + s) = true
    · rw [if_pos hmem, if_pos ⟨List.mem_cons_of_mem i hmem.1, hmem.2⟩]
    · rw [if_neg hmem]
      by_cases hi : i = 8 * k + s
      · have hdiv : i / 8 = k := by omega
        have hmod : i % 8 = s := by omega
        by_cases hr : r i
        · rw [if_pos hr, if_pos ⟨by rw [← hi]; exact List.mem_cons_self i rest,
            by rw [← hi]; exact hr⟩]
          unfold set_extracted_bit
          rw [hdiv, List.getD, List.get?_eq_getElem?, List.getElem?_set_self',
            List.getElem?_eq_getElem hk]
          simp [Nat.one_shiftLeft, hmod, Nat.testBit_lor]
        · rw [if_neg hr, if_neg (by intro hc; rw [hi] at hr; exact hr hc.2)]
      · have hcond : ¬((8 * k + s) ∈ i :: rest ∧ r (8 * k + s) = true) := by
          intro hc
          rcases List.mem_cons.mp hc.1 with he | hm
          · exact hi he.symm
          · exact hmem ⟨hm, hc.2⟩
        rw [if_neg hcond]
        by_cases hr : r i
        · rw [if_pos hr]
          unfold set_extracted_bit
          by_cases hd : i / 8 = k
          · have hms : i % 8 ≠ s := by omega
            rw [hd, List.getD, List.get?_eq_getElem?, List.getElem?_set_self',
              List.getElem?_eq_getElem hk]
            simp [Nat.one_shiftLeft, Nat.testBit_lor, Nat.testBit_two_pow_of_ne hms,
              List.getD, List.get?_eq_getElem?]
          · rw [List.getD, List.get?_eq_getElem?, List.getElem?_set_ne (by omega),
              ← List.get?_eq_getElem?, ← List.getD]
        · rw [if_neg hr]

/-- The pure extract fold keeps all bytes below 256 when the accumulator
bytes are. -/
theorem extract_fold_lt256 (r : Nat → Bool) (l : List Nat) :
    ∀ acc : List Nat, (∀ x ∈ acc, x < 256) →
      ∀ x ∈ l.foldl (fun acc2 i => if r i then set_extracted_bit acc2 i else acc2) acc,
        x < 256 := by
  induction l with
  | nil => intro acc hacc; simpa using hacc
  | cons i rest ih =>
    intro acc hacc
    rw [List.foldl_cons]
    apply ih
    by_cases hr : r i
    · rw [if_pos hr]
      intro x hx
      unfold set_extracted_bit at hx
      rcases List.mem_or_eq_of_mem_set hx with hm | he
      · exact hacc x hm
      · subst he
        have h1 : acc.getD (i / 8) 0 < 2 ^ 8 := by
          rcases Nat.lt_or_ge (i / 8) acc.length with hlt | hge
          · have : acc.getD (i / 8) 0 ∈ acc := by
              rw [List.getD, List.get?_eq_getElem?, List.getElem?_eq_getElem hlt]
              exact List.getElem_mem _
            exact hacc _ this
          · rw [List.getD, List.get?_eq_getElem?, List.getElem?_eq_none (by omega)]
            norm_num
        have h2 : (1 <<< (i % 8) : Nat) < 2 ^ 8 := by
          rw [Nat.one_shiftLeft]
          exact Nat.pow_lt_pow_right (by norm_num) (Nat.mod_lt _ (by norm_num))
        exact Nat.or_lt_two_pow h1 h2
    · rw [if_neg hr]
      exact hacc

/-- Masking with 15 is reduction mod 16. -/
theorem and_mod16 (x : Nat) : x &&& 15 = x % 16 := by
  have := Nat.and_pow_two_sub_one_eq_mod x 4
  norm_num at this
  omega

/-- Masking with 1 is reduction mod 2. -/
theorem and_mod2 (x : Nat) : x &&& 1 = x % 2 := Nat.and_one_is_mod x

/-- Masking with 127 is reduction mod 128. -/
theorem and_mod128 (x : Nat) : x &&& 127 = x % 128 := by
  have := Nat.and_pow_two_sub_one_eq_mod x 7
  norm_num at this
  omega

/-- groupH_table is injective on its 16 entries. -/
theorem groupH_table_inj : ∀ k, k < 16 → ∀ m, m < 16 →
    groupH_table.getD k 0 = groupH_table.getD m 0 → k = m := by decide

/-- groupL_table is injective on its 16 entries. -/
theorem groupL_table_inj : ∀ k, k < 16 → ∀ m, m < 16 →
    groupL_table.getD k 0 = groupL_table.getD m 0 → k = m := by decide

/-- groupP_table is injective on its 2 entries. -/
theorem groupP_table_inj : ∀ k, k < 2 → ∀ m, m < 2 →
    groupP_table.getD k 0 = groupP_table.getD m 0 → k = m := by decide

set_option maxRecDepth 20000 in
/-- The RAMB36E2 data table is injective on its 128 entries. -/
theorem ramb36e2_data_table_inj : ∀ k, k < 128 → ∀ m, m < 128 →
    ramb36e2_data_table.getD k 0 = ramb36e2_data_table.getD m 0 → k = m := by decide

/-- The RAMB36E2 parity table is injective on its 16 entries. -/
theorem ramb36e2_parity_table_inj : ∀ k, k < 16 → ∀ m, m < 16 →
    ramb36e2_parity_table.getD k 0 = ramb36e2_parity_table.getD m 0 → k = m := by decide

/-- The RAMB36E1 data mapping is injective. -/
theorem ramb36e1_map_data_bit_inj (d1 d2 : Nat)
    (h : ramb36e1_map_data_bit d1 = ramb36e1_map_data_bit d2) : d1 = d2 := by
  unfold ramb36e1_map_data_bit at h
  dsimp only at h
  have hH1 := groupH_table_lt (d1 &&& 15) (and15_lt d1)
  have hH2 := groupH_table_lt (d2 &&& 15) (and15_lt d2)
  have hL1 := groupL_table_lt ((d1 >>> 4) &&& 15) (and15_lt _)
  have hL2 := groupL_table_lt ((d2 >>> 4) &&& 15) (and15_lt _)
  have key : d1 / 256 = d2 / 256
      ∧ groupH_table.getD (d1 &&& 15) 0 = groupH_table.getD (d2 &&& 15) 0
      ∧ groupL_table.getD ((d1 >>> 4) &&& 15) 0 = groupL_table.getD ((d2 >>> 4) &&& 15) 0 := by
    omega
  have e1 := groupH_table_inj _ (and15_lt d1) _ (and15_lt d2) key.2.1
  have e2 := groupL_table_inj _ (and15_lt _) _ (and15_lt _) key.2.2
  have c1 := and_mod16 d1
  have c2 := and_mod16 d2
  have c3 := and_mod16 (d1 >>> 4)
  have c4 := and_mod16 (d2 >>> 4)
  have s1 : d1 >>> 4 = d1 / 16 := by rw [Nat.shiftRight_eq_div_pow]
  have s2 : d2 >>> 4 = d2 / 16 := by rw [Nat.shiftRight_eq_div_pow]
  omega

/-- The RAMB36E1 parity mapping is injective. -/
theorem ramb36e1_map_parity_bit_inj (p1 p2 : Nat)
    (h : ramb36e1_map_parity_bit p1 = ramb36e1_map_parity_bit p2) : p1 = p2 := by
  unfold ramb36e1_map_parity_bit at h
  dsimp only at h
  have hP1 := groupP_table_lt (p1 &&& 1) (and1_lt p1)
  have hP2 := groupP_table_lt (p2 &&& 1) (and1_lt p2)
  have hL1 := groupL_table_lt ((p1 >>> 1) &&& 15) (and15_lt _)
  have hL2 := groupL_table_lt ((p2 >>> 1) &&& 15) (and15_lt _)
  have key : p1 / 32 = p2 / 32
      ∧ groupP_table.getD (p1 &&& 1) 0 = groupP_table.getD (p2 &&& 1) 0
      ∧ groupL_table.getD ((p1 >>> 1) &&& 15) 0 = groupL_table.getD ((p2 >>> 1) &&& 15) 0 := by
    omega
  have e1 := groupP_table_inj _ (and1_lt p1) _ (and1_lt p2) key.2.1
  have e2 := groupL_table_inj _ (and15_lt _) _ (and15_lt _) key.2.2
  have c1 := and_mod2 p1
  have c2 := and_mod2 p2
  have c3 := and_mod16 (p1 >>> 1)
  have c4 := and_mod16 (p2 >>> 1)
  have s1 : p1 >>> 1 = p1 / 2 := by rw [Nat.shiftRight_eq_div_pow]
  have s2 : p2 >>> 1 = p2 / 2 := by rw [Nat.shiftRight_eq_div_pow]
  omega

/-- The RAMB36E2 data mapping is injective. -/
theorem ramb36e2_map_data_bit_inj (d1 d2 : Nat)
    (h : ramb36e2_map_data_bit d1 = ramb36e2_map_data_bit d2) : d1 = d2 := by
  unfold ramb36e2_map_data_bit at h
  have hT1 := ramb36e2_data_table_lt (d1 &&& 127) (and127_lt d1)
  have hT2 := ramb36e2_data_table_lt (d2 &&& 127) (and127_lt d2)
  have s1 : d1 >>> 7 = d1 / 128 := by rw [Nat.shiftRight_eq_div_pow]
  have s2 : d2 >>> 7 = d2 / 128 := by rw [Nat.shiftRight_eq_div_pow]
  have key : d1 / 128 = d2 / 128
      ∧ ramb36e2_data_table.getD (d1 &&& 127) 0 = ramb36e2_data_table.getD (d2 &&& 127) 0 := by
    omega
  have e1 := ramb36e2_data_table_inj _ (and127_lt d1) _ (and127_lt d2) key.2
  have c1 := and_mod128 d1
  have c2 := and_mod128 d2
  omega

/-- The RAMB36E2 parity mapping is injective. -/
theorem ramb36e2_map_parity_bit_inj (p1 p2 : Nat)
    (h : ramb36e2_map_parity_bit p1 = ramb36e2_map_parity_bit p2) : p1 = p2 := by
  unfold ramb36e2_map_parity_bit at h
  have hU1 := ramb36e2_parity_table_lt (p1 &&& 15) (and15_lt p1)
  have hU2 := ramb36e2_parity_table_lt (p2 &&& 15) (and15_lt p2)
  have s1 : p1 >>> 4 = p1 / 16 := by rw [Nat.shiftRight_eq_div_pow]
  have s2 : p2 >>> 4 = p2 / 16 := by rw [Nat.shiftRight_eq_div_pow]
  have key : p1 / 16 = p2 / 16
      ∧ ramb36e2_parity_table.getD (p1 &&& 15) 0 = ramb36e2_parity_table.getD (p2 &&& 15) 0 := by
    omega
  have e1 := ramb36e2_parity_table_inj _ (and15_lt p1) _ (and15_lt p2) key.2
  have c1 := and_mod16 p1
  have c2 := and_mod16 p2
  omega

/-- Every tile mapping stays below bitstream_offset + 761856 on in-range
bit addresses (the RAMB36E2 data map attains the largest offsets). -/
theorem bram_map_lt (t : Bram) (p : Bool) (i : Nat)
    (h : i < if p then 4096 else 32768) :
    t.map_to_bitstream i p < t.bitstream_offset + 761856 := by
  unfold Bram.map_to_bitstream
  apply Nat.add_lt_add_left
  cases hk : t.kind <;> cases p <;> dsimp only
  · have hb : i < 32768 := by simpa using h
    have hH := groupH_table_lt (i &&& 15) (and15_lt i)
    have hL := groupL_table_lt ((i >>> 4) &&& 15) (and15_lt _)
    unfold ramb36e1_map_data_bit
    dsimp only
    have hq : i / 256 ≤ 127 := by omega
    omega
  · have hb : i < 4096 := by simpa using h
    have hP := groupP_table_lt (i &&& 1) (and1_lt i)
    have hL := groupL_table_lt ((i >>> 1) &&& 15) (and15_lt _)
    unfold ramb36e1_map_parity_bit
    dsimp only
    have hq : i / 32 ≤ 127 := by omega
    omega
  · have hb : i < 32768 := by simpa using h
    have hT := ramb36e2_data_table_lt (i &&& 127) (and127_lt i)
    unfold ramb36e2_map_data_bit
    have s1 : i >>> 7 = i / 128 := by rw [Nat.shiftRight_eq_div_pow]
    have hq : i / 128 ≤ 255 := by omega
    omega
  · have hb : i < 4096 := by simpa using h
    have hU := ramb36e2_parity_table_lt (i &&& 15) (and15_lt i)
    unfold ramb36e2_map_parity_bit
    have s1 : i >>> 4 = i / 16 := by rw [Nat.shiftRight_eq_div_pow]
    have hq : i / 16 ≤ 255 := by omega
    omega

/-- An in-range getD is a member of the list. -/
theorem getD_mem_of_lt (l : List Nat) (k : Nat) (h : k < l.length) : l.getD k 0 ∈ l := by
  rw [List.getD, List.get?_eq_getElem?, List.getElem?_eq_getElem h]
  exact List.getElem_mem _

/-- Round-trip core: over any injective, range-checked bit mapping,
injecting a byte vector bit by bit and then extracting returns exactly
that byte vector. -/
theorem roundtrip_core (si : SlrInfo) (bytes data : List Nat) (tmap : Nat → Nat)
    (n bl : Nat) (hn : n = 8 * bl)
    (hchk : ∀ i, i < n →
      check_frame_data_range si (map_frame_data_offset (tmap i / 8)) 1 = true)
    (hinj : ∀ i j, tmap i = tmap j → i = j)
    (hlen : si.frame_data_offset + si.frame_data_size ≤ bytes.length)
    (hdata : ∀ b ∈ data, b < 256) (hdlen : data.length = bl) :
    ∃ injected,
      (List.range n).foldlM
          (fun buf i => write_frame_data_bit buf si (tmap i)
            (Nat.testBit (data.getD (i / 8) 0) (i % 8))) bytes
        = Except.ok injected
      ∧ (List.range n).foldlM
          (fun acc i => do
            let v ← read_frame_data_bit injected si (tmap i)
            pure (if v then set_extracted_bit acc i else acc))
          (List.replicate bl 0)
        = Except.ok data := by
  have hchk2 : ∀ i ∈ List.range n,
      check_frame_data_range si (map_frame_data_offset (tmap i / 8)) 1 = true :=
    fun i hi => hchk i (List.mem_range.mp hi)
  have hpw : List.Pairwise (fun i j => tmap i ≠ tmap j) (List.range n) :=
    (List.nodup_range n).imp (fun hne heq => hne (hinj _ _ heq))
  obtain ⟨injected, hfold, hleninj, hallbits, _⟩ :=
    inject_fold_spec si tmap (fun i => Nat.testBit (data.getD (i / 8) 0) (i % 8))
      (List.range n) bytes hchk2 hlen hpw
  refine ⟨injected, hfold, ?_⟩
  rw [extract_foldlM_eq si tmap injected (List.range n) hchk2]
  have hflen : ((List.range n).foldl
      (fun acc2 i => if stored_bit injected si (tmap i) then set_extracted_bit acc2 i
                     else acc2) (List.replicate bl 0)).length = bl := by
    rw [extract_fold_length]
    exact List.length_replicate bl 0
  have hrep256 : ∀ x ∈ List.replicate bl (0 : Nat), x < 256 := by
    intro x hx
    rw [List.eq_of_mem_replicate hx]
    norm_num
  congr 1
  apply List.ext_getElem?
  intro k
  by_cases hkb : k < bl
  · have hkF : k < ((List.range n).foldl
        (fun acc2 i => if stored_bit injected si (tmap i) then set_extracted_bit acc2 i
                       else acc2) (List.replicate bl 0)).length := by omega
    have hkd : k < data.length := by omega
    rw [List.getElem?_eq_getElem hkF, List.getElem?_eq_getElem hkd]
    have hgF : ((List.range n).foldl
        (fun acc2 i => if stored_bit injected si (tmap i) then set_extracted_bit acc2 i
                       else acc2) (List.replicate bl 0))[k] =
      ((List.range n).foldl
        (fun acc2 i => if stored_bit injected si (tmap i) then set_extracted_bit acc2 i
                       else acc2) (List.replicate bl 0)).getD k 0 := by
      rw [List.getD, List.get?_eq_getElem?, List.getElem?_eq_getElem hkF]
      rfl
    have hgd : data[k] = data.getD k 0 := by
      rw [List.getD, List.get?_eq_getElem?, List.getElem?_eq_getElem hkd]
      rfl
    rw [hgF, hgd]
    congr 1
    apply Nat.eq_of_testBit_eq
    intro s
    by_cases hs : s < 8
    · rw [extract_fold_testBit (fun i => stored_bit injected si (tmap i)) (List.range n)
        (List.replicate bl 0) k s hs (by rw [List.length_replicate]; exact hkb)]
      have hin : (8 * k + s) ∈ List.range n := List.mem_range.mpr (by omega)
      have hstored := hallbits (8 * k + s) hin
      have hds : (8 * k + s) / 8 = k := by omega
      have hms : (8 * k + s) % 8 = s := by omega
      rw [hds, hms] at hstored
      have hrep : (List.replicate bl (0 : Nat)).getD k 0 = 0 := by
        rcases Nat.lt_or_ge k bl with hlt | hge
        · rw [List.getD, List.get?_eq_getElem?,
            List.getElem?_eq_getElem (by rw [List.length_replicate]; exact hlt)]
          simp
        · rw [List.getD, List.get?_eq_getElem?,
            List.getElem?_eq_none (by rw [List.length_replicate]; exact hge)]
          rfl
      by_cases hv : Nat.testBit (data.getD k 0) s = true
      · rw [if_pos ⟨hin, by rw [hstored]; exact hv⟩, hv]
      · rw [if_neg (by intro hc; exact hv (hstored ▸ hc.2)), hrep]
        simp only [Nat.zero_testBit]
        exact (Bool.not_eq_true _).mp hv |>.symm ▸ rfl
    · have hF256 : ((List.range n).foldl
          (fun acc2 i => if stored_bit injected si (tmap i) then set_extracted_bit acc2 i
                         else acc2) (List.replicate bl 0)).getD k 0 < 256 := by
        apply extract_fold_lt256 _ _ _ hrep256
        exact getD_mem_of_lt _ k hkF
      have hd256 : data.getD k 0 < 256 := hdata _ (getD_mem_of_lt data k hkd)
      have h2s : (256 : Nat) ≤ 2 ^ s := by
        calc (256 : Nat) = 2 ^ 8 := by norm_num
        _ ≤ 2 ^ s := Nat.pow_le_pow_right (by norm_num) (by omega)
      rw [Nat.testBit_eq_false_of_lt (by omega), Nat.testBit_eq_false_of_lt (by omega)]
  · rw [List.getElem?_eq_none (by omega), List.getElem?_eq_none (by omega)]

/-- C7. BRAM extract/inject round trip: for every RAMB36 tile (RAMB36E1
or RAMB36E2 mapping, any bitstream offset and coordinates), either parity
selection, and every byte vector of exactly the tile's required length
(512 parity / 4096 data bytes), extracting right after injecting returns
the injected data; a vector of any other length makes inject fail with
the size-mismatch error before touching the bitstream. The bitstream must
be large enough to contain the tile (hrange, hlen). -/
theorem C7_bram_extract_inject_roundtrip (t : Bram) (si : SlrInfo)
    (bytes data : List Nat) (parity : Bool)
    (hnw : t.num_words = 1024) (hdb : t.data_bits = 32) (hpb : t.parity_bits = 4)
    (hrange : t.bitstream_offset + 761888 ≤ 8 * si.frame_data_size)
    (hlen : si.frame_data_offset + si.frame_data_size ≤ bytes.length)
    (hdata : ∀ b ∈ data, b < 256) :
    (data.length = (if parity then 512 else 4096) →
      ∃ injected, bram_inject bytes si t parity data = Except.ok injected
        ∧ bram_extract injected si t parity = Except.ok data)
    ∧ (data.length ≠ (if parity then 512 else 4096) →
        bram_inject bytes si t parity data = Except.error BsError.bram_size_mismatch) := by
  have hbit : (if parity then t.parity_bits else t.data_bits) * t.num_words
      = (if parity then 4096 else 32768) := by
    rw [hnw, hdb, hpb]; cases parity <;> norm_num
  have hbl : ((if parity then t.parity_bits else t.data_bits) * t.num_words + 7) / 8
      = (if parity then 512 else 4096) := by
    rw [hbit]; cases parity <;> norm_num
  have hchk : ∀ i, i < (if parity then 4096 else 32768) →
      check_frame_data_range si
        (map_frame_data_offset (t.map_to_bitstream i parity / 8)) 1 = true := by
    intro i hi
    apply check_frame_data_range_true
    have hmap := bram_map_lt t parity i hi
    have hle := map_frame_data_offset_le (t.map_to_bitstream i parity / 8)
    omega
  have hinj : ∀ i j, t.map_to_bitstream i parity = t.map_to_bitstream j parity → i = j := by
    intro i j hj
    unfold Bram.map_to_bitstream at hj
    have hj2 := Nat.add_left_cancel hj
    cases hk : t.kind <;> rw [hk] at hj2 <;> cases parity <;> dsimp only at hj2
    · exact ramb36e1_map_data_bit_inj _ _ hj2
    · exact ramb36e1_map_parity_bit_inj _ _ hj2
    · exact ramb36e2_map_data_bit_inj _ _ hj2
    · exact ramb36e2_map_parity_bit_inj _ _ hj2
  constructor
  · intro hdlen
    obtain ⟨injected, hicore, hecore⟩ :=
      roundtrip_core si bytes data (fun i => t.map_to_bitstream i parity)
        (if parity then 4096 else 32768) (if parity then 512 else 4096)
        (by cases parity <;> norm_num) hchk hinj hlen hdata hdlen
    refine ⟨injected, ?_, ?_⟩
    · unfold bram_inject
      dsimp only
      rw [hbl, hbit, if_neg (by simp [hdlen])]
      exact hicore
    · unfold bram_extract
      dsimp only
      rw [hbl, hbit]
      exact hecore
  · intro hdlen
    unfold bram_inject
    dsimp only
    rw [hbl, if_pos hdlen]

/-- Witness for C7: the RAMB36E1 data mapping at bitstream offset 0 in an
SLR with 95236 bytes of frame data, injecting 4096 zero bytes. -/
theorem C7_bram_extract_inject_roundtrip_witness :
    ((List.replicate 4096 (0 : Nat)).length = (if false then 512 else 4096) →
      ∃ injected,
        bram_inject (List.replicate 95236 0) ⟨0, 0, 95236, 0⟩ (mk_ramb36e1 0 0 0 0) false
            (List.replicate 4096 0) = Except.ok injected
          ∧ bram_extract injected ⟨0, 0, 95236, 0⟩ (mk_ramb36e1 0 0 0 0) false
              = Except.ok (List.replicate 4096 0))
    ∧ ((List.replicate 4096 (0 : Nat)).length ≠ (if false then 512 else 4096) →
        bram_inject (List.replicate 95236 0) ⟨0, 0, 95236, 0⟩ (mk_ramb36e1 0 0 0 0) false
            (List.replicate 4096 0) = Except.error BsError.bram_size_mismatch) :=
  C7_bram_extract_inject_roundtrip (mk_ramb36e1 0 0 0 0) ⟨0, 0, 95236, 0⟩
    (List.replicate 95236 0) (List.replicate 4096 0) false rfl rfl rfl
    (by norm_num [mk_ramb36e1]) (by norm_num [List.length_replicate])
    (fun b hb => by rw [List.eq_of_mem_replicate hb]; norm_num)

/-! ## CRC-strip simulation lemmas -/

/-- getD after set at the same (in-range) index. -/
theorem getD_set_self (l : List Nat) (i v : Nat) (h : i < l.length) :
    (l.set i v).getD i 0 = v := by
  rw [List.getD, List.get?_eq_getElem?, List.getElem?_set_self',
    List.getElem?_eq_getElem h]
  rfl

/-- getD after set at a different index. -/
theorem getD_set_ne (l : List Nat) (i j v : Nat) (h : i ≠ j) :
    (l.set i v).getD j 0 = l.getD j 0 := by
  rw [List.getD, List.get?_eq_getElem?, List.getElem?_set_ne h,
    ← List.get?_eq_getElem?, ← List.getD]

/-- write_nop8 preserves the buffer length. -/
theorem write_nop8_length (buf : List Nat) (i : Nat) :
    (write_nop8 buf i).length = buf.length := by
  simp [write_nop8, List.length_set]

/-- write_nop8 leaves every byte outside [i, i+8) unchanged. -/
theorem write_nop8_getD_outside (buf : List Nat) (i j : Nat)
    (h : j < i ∨ i + 8 ≤ j) :
    (write_nop8 buf i).getD j 0 = buf.getD j 0 := by
  unfold write_nop8
  rw [getD_set_ne _ _ _ _ (by omega), getD_set_ne _ _ _ _ (by omega),
    getD_set_ne _ _ _ _ (by omega), getD_set_ne _ _ _ _ (by omega),
    getD_set_ne _ _ _ _ (by omega), getD_set_ne _ _ _ _ (by omega),
    getD_set_ne _ _ _ _ (by omega), getD_set_ne _ _ _ _ (by omega)]

/-- write_nop8 writes exactly the two-NOP pattern when the window fits the
buffer. -/
theorem write_nop8_pattern (buf : List Nat) (i : Nat) (h : i + 8 ≤ buf.length) :
    ∀ k, k < 8 → (write_nop8 buf i).getD (i + k) 0 = nop_pattern.getD k 0 := by
  intro k hk
  interval_cases k <;>
    (unfold write_nop8
     try simp only [Nat.add_zero]
     repeat rw [getD_set_ne _ _ _ _ (by omega)]
     rw [getD_set_self _ _ _ (by (try simp only [List.length_set]); omega)]
     rfl)

/-- Two buffers that agree at and after pos yield the same 32-bit
big-endian read at pos. -/
theorem read_be32_agree (bufS bytes : List Nat) (pos : Nat)
    (h : ∀ i, pos ≤ i → bufS.getD i 0 = bytes.getD i 0) :
    read_be32 bufS pos = read_be32 bytes pos := by
  unfold read_be32
  rw [h pos (by omega), h (pos + 1) (by omega), h (pos + 2) (by omega),
    h (pos + 3) (by omega)]

/-- Two buffers that agree at and after start have the same sync-pattern
matches at positions at or after start. -/
theorem is_sync_at_agree (bufS bytes : List Nat) (start j : Nat) (hj : start ≤ j)
    (h : ∀ i, start ≤ i → bufS.getD i 0 = bytes.getD i 0) :
    is_sync_at bufS j = is_sync_at bytes j := by
  unfold is_sync_at
  rw [h j (by omega), h (j + 1) (by omega), h (j + 2) (by omega), h (j + 3) (by omega)]

/-- Two same-length buffers that agree at and after start produce the same
sync search result from start. -/
theorem find_sync_index_agree (bufS bytes : List Nat) (start : Nat)
    (hlen : bufS.length = bytes.length)
    (h : ∀ i, start ≤ i → bufS.getD i 0 = bytes.getD i 0) :
    find_sync_index bufS start = find_sync_index bytes start := by
  unfold find_sync_index
  rw [hlen]
  have hfun : (fun j => decide (start ≤ j) && is_sync_at bufS j)
      = (fun j => decide (start ≤ j) && is_sync_at bytes j) := by
    funext j
    by_cases hj : start ≤ j
    · rw [is_sync_at_agree bufS bytes start j hj h]
    · simp [hj]
  rw [hfun]

/-- apply_nops over an appended packet list is sequential application. -/
theorem apply_nops_append (bytes : List Nat) (l1 l2 : List Packet) :
    apply_nops bytes (l1 ++ l2) = apply_nops (apply_nops bytes l1) l2 :=
  List.foldl_append _ _ _ _

/-- apply_nops preserves the buffer length. -/
theorem apply_nops_length (ps : List Packet) :
    ∀ bytes : List Nat, (apply_nops bytes ps).length = bytes.length := by
  induction ps with
  | nil => intro bytes; rfl
  | cons p ps ih =>
    intro bytes
    show (apply_nops (if p.hdr = 0x30000001 then write_nop8 bytes p.storage_offset
                      else bytes) ps).length = bytes.length
    rw [ih]
    by_cases hp : p.hdr = 0x30000001 <;> simp [hp, write_nop8_length]

/-- apply_nops leaves every byte outside all CRC windows unchanged. -/
theorem apply_nops_getD_outside (ps : List Packet) :
    ∀ (bytes : List Nat) (i : Nat),
      (∀ p ∈ ps, p.hdr = 0x30000001 →
        i < p.storage_offset ∨ p.storage_offset + 8 ≤ i) →
      (apply_nops bytes ps).getD i 0 = bytes.getD i 0 := by
  induction ps with
  | nil => intro bytes i _; rfl
  | cons p ps ih =>
    intro bytes i hout
    show (apply_nops (if p.hdr = 0x30000001 then write_nop8 bytes p.storage_offset
                      else bytes) ps).getD i 0 = bytes.getD i 0
    rw [ih _ i (fun q hq => hout q (List.mem_cons_of_mem p hq))]
    by_cases hp : p.hdr = 0x30000001
    · rw [if_pos hp,
        write_nop8_getD_outside bytes p.storage_offset i
          (hout p (List.mem_cons_self p ps) hp)]
    · rw [if_neg hp]

/-- apply_nops writes the two-NOP pattern over every CRC packet window,
provided the CRC windows are separated from all later packets and fit the
buffer. -/
theorem apply_nops_pattern (ps : List Packet) :
    ∀ bytes : List Nat, crc_sep ps →
      (∀ p ∈ ps, p.hdr = 0x30000001 → p.storage_offset + 8 ≤ bytes.length) →
      ∀ p ∈ ps, p.hdr = 0x30000001 → ∀ k, k < 8 →
        (apply_nops bytes ps).getD (p.storage_offset + k) 0 = nop_pattern.getD k 0 := by
  induction ps with
  | nil => intro bytes _ _ p hp; cases hp
  | cons q ps ih =>
    intro bytes hsep hfit p hp hcrc k hk
    rcases List.pairwise_cons.mp hsep with ⟨hhead, htail⟩
    rcases List.mem_cons.mp hp with hpq | hpm
    · subst hpq
      show (apply_nops (if p.hdr = 0x30000001 then write_nop8 bytes p.storage_offset
                        else bytes) ps).getD (p.storage_offset + k) 0
           = nop_pattern.getD k 0
      rw [if_pos hcrc]
      rw [apply_nops_getD_outside ps _ _ (fun r hr hrcrc => by
        have := hhead r hr hcrc
        omega)]
      exact write_nop8_pattern bytes p.storage_offset
        (hfit p (List.mem_cons_self p ps) hcrc) k hk
    · show (apply_nops (if q.hdr = 0x30000001 then write_nop8 bytes q.storage_offset
                        else bytes) ps).getD (p.storage_offset + k) 0
           = nop_pattern.getD k 0
      apply ih _ htail _ p hpm hcrc k hk
      intro r hr hrcrc
      have h1 := hfit r (List.mem_cons_of_mem q hr) hrcrc
      by_cases hq : q.hdr = 0x30000001 <;> simp [hq, write_nop8_length] <;> omega

theorem strip_sim_loop :
    ∀ (fuel : Nat) (bytes bufS : List Nat) (pkts0 : List Packet)
      (base pos cfg_end slr : Nat) (cw : Bool) (creg : Nat)
      (resC : (List Nat × List Packet) × Nat),
      bs_parse_loop Prod.fst collect_cb fuel (bytes, pkts0) base pos cfg_end slr cw creg
        = Except.ok resC →
      bufS.length = bytes.length →
      (∀ i, pos ≤ i → bufS.getD i 0 = bytes.getD i 0) →
      cfg_end ≤ bytes.length →
      ∃ delta pend,
        resC = ((bytes, pkts0 ++ delta), pend)
        ∧ pos ≤ pend
        ∧ bs_parse_loop id strip_crc_cb fuel bufS base pos cfg_end slr cw creg
            = Except.ok (apply_nops bufS delta, pend)
        ∧ (∀ i, pend ≤ i → (apply_nops bufS delta).getD i 0 = bytes.getD i 0)
        ∧ crc_sep delta
        ∧ (∀ p ∈ delta, pos ≤ p.storage_offset
            ∧ (p.hdr = 0x30000001 → p.storage_offset + 8 ≤ pend
                ∧ p.storage_offset + 8 ≤ bytes.length)) := by
  intro fuel
  induction fuel with
  | zero =>
    intro bytes bufS pkts0 base pos cfg_end slr cw creg resC hC
    simp [bs_parse_loop] at hC
  | succ fuel ih =>
    intro bytes bufS pkts0 base pos cfg_end slr cw creg resC hC hlen hagree hce
    rw [bs_parse_loop] at hC
    dsimp only at hC
    rw [bs_parse_loop]
    dsimp only [id_eq]
    rw [read_be32_agree bufS bytes pos hagree]
    by_cases hend : pos = cfg_end
    · rw [if_pos hend] at hC ⊢
      cases hC
      exact ⟨[], pos, by simp, le_refl pos, rfl, fun i hi => hagree i hi, List.Pairwise.nil,
        by simp⟩
    · rw [if_neg hend] at hC ⊢
      by_cases ht1 : bs_packet_type (read_be32 bytes pos) = 1
      · rw [if_pos ht1] at hC ⊢
        by_cases hbc : cfg_end - (pos + 4) <
            bs_type1_word_count (read_be32 bytes pos) * 4
        · rw [if_pos hbc] at hC
          exact absurd hC (by simp)
        · rw [if_neg hbc] at hC ⊢
          dsimp only [collect_cb] at hC
          by_cases hbreak : bs_op (read_be32 bytes pos) = 2 ∧
              bs_type1_reg (read_be32 bytes pos) = 30 ∧
              bs_type1_word_count (read_be32 bytes pos) > 0
          · rw [if_pos hbreak] at hC
            cases hC
            have hne : read_be32 bytes pos ≠ 0x30000001 := by
              intro h
              rw [h] at hbreak
              exact absurd hbreak.2.1 (by decide)
            dsimp only [strip_crc_cb]
            rw [if_neg hne]
            dsimp only
            rw [if_pos hbreak]
            refine ⟨[_], pos + 4, rfl, by omega, ?_, ?_, ?_, ?_⟩
            · simp [apply_nops, hne]
            · intro i hi
              simp only [apply_nops, List.foldl_cons, List.foldl_nil, if_neg hne]
              exact hagree i (by omega)
            · simp [crc_sep]
            · intro p hp
              simp only [List.mem_singleton] at hp
              subst hp
              exact ⟨le_refl _, fun h => absurd h hne⟩
          · rw [if_neg hbreak] at hC
            simp only [if_true] at hC
            set pkt : Packet :=
              { stream_index := slr, offset := pos - base, storage_offset := pos
              , hdr := read_be32 bytes pos
              , packet_type := bs_packet_type (read_be32 bytes pos)
              , op := bs_op (read_be32 bytes pos)
              , reg := bs_type1_reg (read_be32 bytes pos)
              , word_count := bs_type1_word_count (read_be32 bytes pos)
              , payload_start := pos + 4
              , payload_size := bs_type1_word_count (read_be32 bytes pos) * 4 } with hpkt
            have hhdr : pkt.hdr = read_be32 bytes pos := by rw [hpkt]
            have hso : pkt.storage_offset = pos := by rw [hpkt]
            by_cases hcrc : read_be32 bytes pos = 0x30000001
            · have hhdrc : pkt.hdr = 0x30000001 := by rw [hhdr, hcrc]
              have hwc : bs_type1_word_count (read_be32 bytes pos) = 1 := by
                rw [hcrc]; decide
              have hps4 : pkt.payload_size = 4 := by
                rw [hpkt]
                show bs_type1_word_count (read_be32 bytes pos) * 4 = 4
                omega
              have hpos2 : pos + 4 + bs_type1_word_count (read_be32 bytes pos) * 4
                  = pos + 8 := by omega
              have hfit : pos + 8 ≤ cfg_end := by omega
              rw [hpos2] at hC
              have hlen2 : (write_nop8 bufS pos).length = bytes.length := by
                rw [write_nop8_length]; exact hlen
              have hagree2 : ∀ i, pos + 8 ≤ i →
                  (write_nop8 bufS pos).getD i 0 = bytes.getD i 0 := by
                intro i hi
                rw [write_nop8_getD_outside _ _ _ (Or.inr hi)]
                exact hagree i (by omega)
              obtain ⟨delta, pend, hres, hpe, hstrip, hag, hsep, helem⟩ :=
                ih _ _ _ _ _ _ _ _ _ _ hC hlen2 hagree2 hce
              have hstep : apply_nops bufS (pkt :: delta)
                  = apply_nops (write_nop8 bufS pos) delta := by
                show apply_nops
                  (if pkt.hdr = 0x30000001 then write_nop8 bufS pkt.storage_offset
                   else bufS) delta = _
                rw [if_pos hhdrc, hso]
              dsimp only [strip_crc_cb]
              rw [if_pos hhdrc, if_neg (show ¬(4 + pkt.payload_size ≠ 8) from by omega)]
              dsimp only
              rw [if_neg hbreak, if_pos (rfl : true = true), hpos2]
              refine ⟨pkt :: delta, pend, ?_, by omega, ?_, ?_, ?_, ?_⟩
              · rw [hres]; simp
              · rw [hstep]; exact hstrip
              · intro i hi
                rw [hstep]
                exact hag i hi
              · refine List.Pairwise.cons ?_ hsep
                intro q hq hcq
                have := (helem q hq).1
                omega
              · intro p hp
                rcases List.mem_cons.mp hp with h | h
                · subst h
                  exact ⟨by omega, fun _ => ⟨by omega, by omega⟩⟩
                · obtain ⟨h1, h2⟩ := helem p h
                  exact ⟨by omega, h2⟩
            · have hhdrn : pkt.hdr ≠ 0x30000001 := by rw [hhdr]; exact hcrc
              have hagree2 : ∀ i,
                  pos + 4 + bs_type1_word_count (read_be32 bytes pos) * 4 ≤ i →
                  bufS.getD i 0 = bytes.getD i 0 := by
                intro i hi
                exact hagree i (by omega)
              obtain ⟨delta, pend, hres, hpe, hstrip, hag, hsep, helem⟩ :=
                ih _ _ _ _ _ _ _ _ _ _ hC hlen hagree2 hce
              have hstep : apply_nops bufS (pkt :: delta) = apply_nops bufS delta := by
                show apply_nops
                  (if pkt.hdr = 0x30000001 then write_nop8 bufS pkt.storage_offset
                   else bufS) delta = _
                rw [if_neg hhdrn]
              dsimp only [strip_crc_cb]
              rw [if_neg hhdrn]
              dsimp only
              rw [if_neg hbreak, if_pos (rfl : true = true)]
              refine ⟨pkt :: delta, pend, ?_, by omega, ?_, ?_, ?_, ?_⟩
              · rw [hres]; simp
              · rw [hstep]; exact hstrip
              · intro i hi
                rw [hstep]
                exact hag i hi
              · refine List.Pairwise.cons ?_ hsep
                intro q hq hcq
                exact absurd hcq hhdrn
              · intro p hp
                rcases List.mem_cons.mp hp with h | h
                · subst h
                  exact ⟨by omega, fun hc => absurd hc hhdrn⟩
                · obtain ⟨h1, h2⟩ := helem p h
                  exact ⟨by omega, h2⟩
      · rw [if_neg ht1] at hC ⊢
        by_cases ht2 : bs_packet_type (read_be32 bytes pos) = 2
        · rw [if_pos ht2] at hC ⊢
          by_cases hbc : cfg_end - (pos + 4) <
              bs_type2_word_count (read_be32 bytes pos) * 4
          · rw [if_pos hbc] at hC
            exact absurd hC (by simp)
          · rw [if_neg hbc] at hC ⊢
            dsimp only [collect_cb] at hC
            have hncrc : read_be32 bytes pos ≠ 0x30000001 := by
              intro h
              rw [h] at ht2
              exact absurd ht2 (by decide)
            set pkt : Packet :=
              { stream_index := slr, offset := pos - base, storage_offset := pos
              , hdr := read_be32 bytes pos
              , packet_type := bs_packet_type (read_be32 bytes pos)
              , op := if cw then 2 else 0
              , reg := creg
              , word_count := bs_type2_word_count (read_be32 bytes pos)
              , payload_start := pos + 4
              , payload_size := bs_type2_word_count (read_be32 bytes pos) * 4 } with hpkt
            have hhdrn : pkt.hdr ≠ 0x30000001 := by rw [hpkt]; exact hncrc
            have hso : pkt.storage_offset = pos := by rw [hpkt]
            by_cases hbreak : (if cw then 2 else 0) = 2 ∧ creg = 30 ∧
                bs_type2_word_count (read_be32 bytes pos) > 0
            · rw [if_pos hbreak] at hC
              cases hC
              dsimp only [strip_crc_cb]
              rw [if_neg hhdrn]
              dsimp only
              rw [if_pos hbreak]
              refine ⟨[pkt], pos + 4, rfl, by omega, ?_, ?_, ?_, ?_⟩
              · simp [apply_nops, hhdrn]
              · intro i hi
                simp only [apply_nops, List.foldl_cons, List.foldl_nil, if_neg hhdrn]
                exact hagree i (by omega)
              · simp [crc_sep]
              · intro p hp
                simp only [List.mem_singleton] at hp
                subst hp
                exact ⟨by omega, fun hc => absurd hc hhdrn⟩
            · rw [if_neg hbreak] at hC
              simp only [if_true] at hC
              have hagree2 : ∀ i,
                  pos + 4 + bs_type2_word_count (read_be32 bytes pos) * 4 ≤ i →
                  bufS.getD i 0 = bytes.getD i 0 := by
                intro i hi
                exact hagree i (by omega)
              obtain ⟨delta, pend, hres, hpe, hstrip, hag, hsep, helem⟩ :=
                ih _ _ _ _ _ _ _ _ _ _ hC hlen hagree2 hce
              have hstep : apply_nops bufS (pkt :: delta) = apply_nops bufS delta := by
                show apply_nops
                  (if pkt.hdr = 0x30000001 then write_nop8 bufS pkt.storage_offset
                   else bufS) delta = _
                rw [if_neg hhdrn]
              dsimp only [strip_crc_cb]
              rw [if_neg hhdrn]
              dsimp only
              rw [if_neg hbreak, if_pos (rfl : true = true)]
              refine ⟨pkt :: delta, pend, ?_, by omega, ?_, ?_, ?_, ?_⟩
              · rw [hres]; simp
              · rw [hstep]; exact hstrip
              · intro i hi
                rw [hstep]
                exact hag i hi
              · refine List.Pairwise.cons ?_ hsep
                intro q hq hcq
                exact absurd hcq hhdrn
              · intro p hp
                rcases List.mem_cons.mp hp with h | h
                · subst h
                  exact ⟨by omega, fun hc => absurd hc hhdrn⟩
                · obtain ⟨h1, h2⟩ := helem p h
                  exact ⟨by omega, h2⟩
        · rw [if_neg ht2] at hC ⊢
          by_cases hsync : read_be32 bytes pos = SYNC_WORD
          · rw [if_pos hsync] at hC ⊢
            cases hC
            exact ⟨[], pos, by simp, le_refl pos, rfl, fun i hi => hagree i hi,
              List.Pairwise.nil, by simp⟩
          · rw [if_neg hsync] at hC
            exact absurd hC (by simp)

theorem find_sync_index_bound (bytes : List Nat) (start sp : Nat)
    (h : find_sync_index bytes start = some sp) :
    start ≤ sp ∧ sp + 4 ≤ bytes.length := by
  unfold find_sync_index at h
  have hp := List.find?_some h
  simp only [Bool.and_eq_true, decide_eq_true_eq] at hp
  obtain ⟨h1, h2⟩ := hp
  refine ⟨h1, ?_⟩
  by_contra hlt
  push_neg at hlt
  unfold is_sync_at at h2
  have hz : bytes.getD (sp + 3) 0 = 0 := List.getD_eq_default _ _ (by omega)
  simp only [Bool.and_eq_true, beq_iff_eq] at h2
  rw [hz] at h2
  exact absurd h2.2 (by norm_num)

theorem strip_sim_substream (bytes bufS : List Nat) (pkts0 : List Packet)
    (cur slr : Nat) (resC : (List Nat × List Packet) × Nat)
    (hC : bs_parse_substream Prod.fst collect_cb (bytes, pkts0) cur slr
      = Except.ok resC)
    (hlen : bufS.length = bytes.length)
    (hagree : ∀ i, cur ≤ i → bufS.getD i 0 = bytes.getD i 0) :
    ∃ delta pend,
      resC = ((bytes, pkts0 ++ delta), pend)
      ∧ cur ≤ pend
      ∧ bs_parse_substream id strip_crc_cb bufS cur slr
          = Except.ok (apply_nops bufS delta, pend)
      ∧ (∀ i, pend ≤ i → (apply_nops bufS delta).getD i 0 = bytes.getD i 0)
      ∧ crc_sep delta
      ∧ (∀ p ∈ delta, cur ≤ p.storage_offset
          ∧ (p.hdr = 0x30000001 → p.storage_offset + 8 ≤ pend
              ∧ p.storage_offset + 8 ≤ bytes.length)) := by
  unfold bs_parse_substream at hC ⊢
  dsimp only [id_eq] at hC ⊢
  rw [hlen, find_sync_index_agree bufS bytes cur hlen hagree]
  cases hsp : find_sync_index bytes cur with
  | none =>
    rw [hsp] at hC
    exact absurd hC (by simp)
  | some sp =>
    rw [hsp] at hC
    dsimp only at hC ⊢
    obtain ⟨hcs, hb⟩ := find_sync_index_bound bytes cur sp hsp
    have hce : sp + 4 + ((bytes.length - (sp + 4))
        - (bytes.length - (sp + 4)) % 4) ≤ bytes.length := by omega
    have hagree2 : ∀ i, sp + 4 ≤ i → bufS.getD i 0 = bytes.getD i 0 :=
      fun i hi => hagree i (by omega)
    obtain ⟨delta, pend, hres, hpe, hstrip, hag, hsep, helem⟩ :=
      strip_sim_loop _ _ _ _ _ _ _ _ _ _ _ hC hlen hagree2 hce
    refine ⟨delta, pend, hres, by omega, hstrip, hag, hsep, ?_⟩
    intro p hp
    obtain ⟨h1, h2⟩ := helem p hp
    exact ⟨by omega, h2⟩

theorem strip_sim_all :
    ∀ (fuel : Nat) (bytes bufS : List Nat) (pkts0 : List Packet) (cur slr : Nat)
      (resC : List Nat × List Packet),
      bs_parse_all Prod.fst collect_cb fuel (bytes, pkts0) cur slr = Except.ok resC →
      bufS.length = bytes.length →
      (∀ i, cur ≤ i → bufS.getD i 0 = bytes.getD i 0) →
      ∃ delta,
        resC = (bytes, pkts0 ++ delta)
        ∧ bs_parse_all id strip_crc_cb fuel bufS cur slr
            = Except.ok (apply_nops bufS delta)
        ∧ crc_sep delta
        ∧ (∀ p ∈ delta, cur ≤ p.storage_offset
            ∧ (p.hdr = 0x30000001 → p.storage_offset + 8 ≤ bytes.length)) := by
  intro fuel
  induction fuel with
  | zero =>
    intro bytes bufS pkts0 cur slr resC hC
    simp [bs_parse_all] at hC
  | succ fuel ih =>
    intro bytes bufS pkts0 cur slr resC hC hlen hagree
    rw [bs_parse_all] at hC
    dsimp only at hC
    rw [bs_parse_all]
    dsimp only [id_eq]
    rw [hlen]
    by_cases hcl : cur < bytes.length
    · rw [if_pos hcl] at hC ⊢
      cases hsub : bs_parse_substream Prod.fst collect_cb (bytes, pkts0) cur slr with
      | error e =>
        rw [hsub] at hC
        exact absurd hC (by simp)
      | ok val =>
        rw [hsub] at hC
        dsimp only at hC
        obtain ⟨delta1, pend, hres1, hcp, hstrip1, hag1, hsep1, helem1⟩ :=
          strip_sim_substream bytes bufS pkts0 cur slr val hsub hlen hagree
        rw [hres1] at hC
        dsimp only at hC
        have hlen2 : (apply_nops bufS delta1).length = bytes.length := by
          rw [apply_nops_length]; exact hlen
        obtain ⟨delta2, hres2, hstrip2, hsep2, helem2⟩ :=
          ih _ _ _ _ _ _ hC hlen2 hag1
        rw [hstrip1]
        dsimp only
        refine ⟨delta1 ++ delta2, ?_, ?_, ?_, ?_⟩
        · rw [hres2]
          simp
        · rw [hstrip2, apply_nops_append]
        · rw [crc_sep, List.pairwise_append]
          refine ⟨hsep1, hsep2, ?_⟩
          intro p hp q hq hcrc
          have h1 := (helem1 p hp).2 hcrc
          have h2 := (helem2 q hq).1
          omega
        · intro p hp
          rcases List.mem_append.mp hp with h | h
          · obtain ⟨h1, h2⟩ := helem1 p h
            exact ⟨h1, fun hc => (h2 hc).2⟩
          · obtain ⟨h1, h2⟩ := helem2 p h
            exact ⟨by omega, h2⟩
    · rw [if_neg hcl] at hC ⊢
      cases hC
      exact ⟨[], by simp, rfl, List.Pairwise.nil, by simp⟩

/-- C6: applying the CRC-strip rewrite to a buffer the parser accepts
succeeds and replaces every packet whose 32-bit header equals 0x30000001
by the eight bytes 20 00 00 00 20 00 00 00 (two NOP headers, preserving
the buffer length), and leaves every byte outside those 8-byte windows
unchanged. -/
theorem C6_strip_crc_frame_effect (bytes : List Nat) (pkts : List Packet)
    (h : bs_parse_packets bytes = Except.ok pkts) :
    ∃ out, strip_crc_checks bytes = Except.ok out
      ∧ out.length = bytes.length
      ∧ (∀ p ∈ pkts, p.hdr = 0x30000001 → ∀ k, k < 8 →
          out.getD (p.storage_offset + k) 0 = nop_pattern.getD k 0)
      ∧ (∀ i, (∀ p ∈ pkts, p.hdr = 0x30000001 →
          i < p.storage_offset ∨ p.storage_offset + 8 ≤ i) →
          out.getD i 0 = bytes.getD i 0) := by
  unfold bs_parse_packets at h
  cases hall : bs_parse_all Prod.fst collect_cb (bytes.length + 1) (bytes, []) 0 0 with
  | error e =>
    rw [hall] at h
    exact absurd h (by simp [Except.map])
  | ok resC =>
    rw [hall] at h
    simp only [Except.map] at h
    have hsnd : resC.2 = pkts := Except.ok.inj h
    obtain ⟨delta, hres, hstrip, hsep, helem⟩ :=
      strip_sim_all (bytes.length + 1) bytes bytes [] 0 0 resC hall rfl
        (fun i _ => rfl)
    have hdp : delta = pkts := by
      rw [hres] at hsnd
      simpa using hsnd
    subst hdp
    refine ⟨apply_nops bytes delta, ?_, ?_, ?_, ?_⟩
    · unfold strip_crc_checks
      exact hstrip
    · exact apply_nops_length delta bytes
    · intro p hp hcrc k hk
      exact apply_nops_pattern delta bytes hsep
        (fun q hq hc => ((helem q hq).2 hc)) p hp hcrc k hk
    · intro i hi
      exact apply_nops_getD_outside delta bytes i hi

theorem C6_strip_crc_frame_effect_witness :
    bs_parse_packets strip_example_stream = Except.ok strip_example_pkts
    ∧ ∃ out, strip_crc_checks strip_example_stream = Except.ok out
      ∧ out.length = strip_example_stream.length
      ∧ (∀ p ∈ strip_example_pkts, p.hdr = 0x30000001 → ∀ k, k < 8 →
          out.getD (p.storage_offset + k) 0 = nop_pattern.getD k 0)
      ∧ (∀ i, (∀ p ∈ strip_example_pkts, p.hdr = 0x30000001 →
          i < p.storage_offset ∨ p.storage_offset + 8 ≤ i) →
          out.getD i 0 = strip_example_stream.getD i 0) :=
  ⟨by rfl,
   C6_strip_crc_frame_effect strip_example_stream strip_example_pkts (by rfl)⟩

end Unbit
